import Mathlib

/-!
# Personal Task Tracker: session gate and task store

A shallow embedding of the logic of `src/components/AuthGuard.jsx`,
`src/pages/LoginPage.jsx`, `src/router.jsx` and `src/pages/TasksPage.jsx`.

* A JavaScript string is its sequence of UTF-16 code units (`JSString`), so
  that emptiness (truthiness), `trim` and the relational operators are the
  ones the program runs.
* `localStorage` is an association list from keys to string values;
  `getItem` answers `none` where the browser answers `null`.
* The component state of `TasksPage.jsx` is the record `State`; every handler
  is a function from the state before the event to the state after it.
  `Date.now()` and `new Date().toISOString()` are parameters of the handler
  that reads them.
-/

namespace TaskTracker

/-! ## JavaScript strings -/

/-- A JavaScript string: the list of its UTF-16 code units. -/
abbrev JSString := List Nat

/-- UTF-16 code units of one Unicode scalar value. -/
def utf16Char (c : Char) : List Nat :=
  if c.toNat < 0x10000 then [c.toNat]
  else [0xD800 + (c.toNat - 0x10000) / 0x400, 0xDC00 + (c.toNat - 0x10000) % 0x400]

/-- The JavaScript string written by a literal of the source. -/
def utf16 (s : String) : JSString :=
  s.toList.flatMap utf16Char

/-- ToBoolean on a string: every string but the empty one is truthy. -/
def truthyStr (s : JSString) : Bool :=
  !s.isEmpty

/-- ToBoolean on what `getItem` returns: `null` is falsy, a string is truthy
unless it is empty. -/
def truthyItem : Option JSString → Bool
  | none => false
  | some s => truthyStr s

/-- Code units that `String.prototype.trim` strips: WhiteSpace and
LineTerminator of ECMA-262. -/
def isTrimUnit (c : Nat) : Bool :=
  c == 0x09 || c == 0x0A || c == 0x0B || c == 0x0C || c == 0x0D || c == 0x20 ||
  c == 0xA0 || c == 0x1680 || (0x2000 ≤ c && c ≤ 0x200A) || c == 0x2028 ||
  c == 0x2029 || c == 0x202F || c == 0x205F || c == 0x3000 || c == 0xFEFF

/-- `s.trim()`. -/
def trim (s : JSString) : JSString :=
  ((s.dropWhile isTrimUnit).reverse.dropWhile isTrimUnit).reverse

/-- `a < b` on two strings: lexicographic order of the code units. -/
def jsLt : JSString → JSString → Bool
  | [], [] => false
  | [], _ :: _ => true
  | _ :: _, [] => false
  | x :: xs, y :: ys => if x < y then true else if y < x then false else jsLt xs ys

/-- `a > b` on two strings. -/
def jsGt (a b : JSString) : Bool :=
  jsLt b a

/-- `a >= b` on two strings: the negation of `a < b`. -/
def jsGe (a b : JSString) : Bool :=
  !jsLt a b

/-! ## localStorage -/

/-- The key-value store of the browser, string keys and string values. -/
abbrev Storage := List (JSString × JSString)

/-- `localStorage.getItem(key)`: `none` stands for `null`. -/
def getItem : Storage → JSString → Option JSString
  | [], _ => none
  | (k, v) :: rest, key => if k = key then some v else getItem rest key

/-- `localStorage.setItem(key, value)`: overwrites the entry of `key` where
it stands, or adds one. -/
def setItem : Storage → JSString → JSString → Storage
  | [], key, value => [(key, value)]
  | (k, v) :: rest, key, value =>
    if k = key then (k, value) :: rest else (k, v) :: setItem rest key value

/-! ## Session gate: `AuthGuard.jsx`, `LoginPage.jsx`, `router.jsx` -/

/-- What a route element renders to. -/
inductive View where
  | loginPage
  | dashboardPage
  | tasksPage
  | aboutPage
  | layout (child : View)
  | navigate (target : JSString) (replace : Bool)
  deriving DecidableEq, Repr

/-- The test of `AuthGuard`: `localStorage.getItem('username')` taken as a
condition. -/
def isAuthenticated (store : Storage) : Bool :=
  truthyItem (getItem store (utf16 "username"))

/-- `AuthGuard`: `isLoggedIn ? children : <Navigate to="/" replace />`. -/
def AuthGuard (store : Storage) (children : View) : View :=
  if isAuthenticated store then children else View.navigate (utf16 "/") true

/-- The route table of `router.jsx`: path and element, the element as a
function of the storage read when it renders. -/
def router : List (JSString × (Storage → View)) :=
  [ (utf16 "/", fun _ => View.loginPage),
    (utf16 "/dashboard", fun store => AuthGuard store (View.layout View.dashboardPage)),
    (utf16 "/TasksPage", fun store => AuthGuard store (View.layout View.tasksPage)),
    (utf16 "/AboutPage", fun store => AuthGuard store (View.layout View.aboutPage)) ]

/-- The element of the route whose path is `path`, rendered against `store`;
`none` when the table has no such path. -/
def renderRoute (store : Storage) (path : JSString) : Option View :=
  (router.find? (fun r => r.1 == path)).map (fun r => r.2 store)

/-- The protected content of a route: the page inside `Layout`. -/
def isProtectedContent : View → Bool
  | View.layout _ => true
  | View.dashboardPage => true
  | View.tasksPage => true
  | View.aboutPage => true
  | _ => false

/-- What `handleLogin` leaves behind: the storage, the route navigated to
(if any) and the alert shown (if any). -/
structure LoginOutcome where
  store : Storage
  navigatedTo : Option JSString
  alert : Option JSString
  deriving DecidableEq, Repr

/-- `handleLogin` of `LoginPage.jsx`, on the text of the username field. -/
def handleLogin (store : Storage) (username : JSString) : LoginOutcome :=
  if truthyStr (trim username) then
    { store := setItem store (utf16 "username") username,
      navigatedTo := some (utf16 "/dashboard"),
      alert := none }
  else
    { store := store,
      navigatedTo := none,
      alert := some (utf16 "Please enter a username") }

/-- A login fails when it ends in the alert. -/
def LoginOutcome.failed (o : LoginOutcome) : Bool :=
  o.alert.isSome

/-! ## Tasks: `TasksPage.jsx` -/

/-- A task object, with the eight fields `handleSubmit` writes. -/
structure Task where
  id : Int
  title : JSString
  startDate : JSString
  endDate : JSString
  priority : JSString
  description : JSString
  completed : Bool
  createdAt : JSString
  deriving DecidableEq, Repr

/-- The `formData` state. -/
structure TaskForm where
  title : JSString
  startDate : JSString
  endDate : JSString
  priority : JSString
  description : JSString
  deriving DecidableEq, Repr

/-- The `errors` state: a message per field, `none` where the object has no
such key. -/
structure FormErrors where
  title : Option JSString
  startDate : Option JSString
  endDate : Option JSString
  deriving DecidableEq, Repr

/-- The `taskStats` state. -/
structure TaskStats where
  total : Nat
  completed : Nat
  pending : Nat
  deriving DecidableEq, Repr

/-- The state of the `TasksPage` component. -/
structure State where
  tasks : List Task
  showModal : Bool
  currentTask : Option Task
  formData : TaskForm
  errors : FormErrors
  currentFilter : JSString
  showToast : Bool
  deriving DecidableEq, Repr

/-- The statistics the effect on `tasks` computes. -/
def computeStats (tasks : List Task) : TaskStats :=
  { total := tasks.length,
    completed := (tasks.filter (fun task => task.completed)).length,
    pending := (tasks.filter (fun task => !task.completed)).length }

/-- The predicate of `filteredTasks` for one task. -/
def filterPred (currentFilter : JSString) (task : Task) : Bool :=
  if currentFilter = utf16 "completed" then task.completed
  else if currentFilter = utf16 "pending" then !task.completed
  else true

/-- `filteredTasks`. -/
def filteredTasks (tasks : List Task) (currentFilter : JSString) : List Task :=
  tasks.filter (filterPred currentFilter)

/-- The `newErrors` object `validateForm` builds, its four `if` statements in
the order of the source; the fourth overwrites the `endDate` message of the
third. -/
def formErrors (f : TaskForm) : FormErrors :=
  let e0 : FormErrors := { title := none, startDate := none, endDate := none }
  let e1 := if !truthyStr (trim f.title) then
    { e0 with title := some (utf16 "Title is required") } else e0
  let e2 := if !truthyStr f.startDate then
    { e1 with startDate := some (utf16 "Start date is required") } else e1
  let e3 := if !truthyStr f.endDate then
    { e2 with endDate := some (utf16 "End date is required") } else e2
  if truthyStr f.startDate && truthyStr f.endDate && jsGt f.startDate f.endDate then
    { e3 with endDate := some (utf16 "End date must be after start date") }
  else e3

/-- `Object.keys(newErrors).length === 0`. -/
def FormErrors.isEmpty (e : FormErrors) : Bool :=
  e.title.isNone && e.startDate.isNone && e.endDate.isNone

/-- `validateForm`: the new `errors` state and the returned boolean. -/
def validateForm (s : State) : State × Bool :=
  ({ s with errors := formErrors s.formData }, (formErrors s.formData).isEmpty)

/-- `a || b` on numbers: `a` unless it is falsy, and of the integers only 0
is. -/
def orElseInt (a : Option Int) (b : Int) : Int :=
  match a with
  | some x => if x = 0 then b else x
  | none => b

/-- `a || false` on a boolean that may be `undefined`. -/
def orElseFalse (a : Option Bool) : Bool :=
  match a with
  | some x => x
  | none => false

/-- `a || b` on strings: `a` unless it is `undefined` or empty. -/
def orElseStr (a : Option JSString) (b : JSString) : JSString :=
  match a with
  | some x => if truthyStr x then x else b
  | none => b

/-- The `newTask` object of `handleSubmit`. -/
def newTask (now : Int) (nowISO : JSString) (s : State) : Task :=
  { id := orElseInt (s.currentTask.map Task.id) now,
    title := s.formData.title,
    startDate := s.formData.startDate,
    endDate := s.formData.endDate,
    priority := s.formData.priority,
    description := s.formData.description,
    completed := orElseFalse (s.currentTask.map Task.completed),
    createdAt := orElseStr (s.currentTask.map Task.createdAt) nowISO }

/-- `handleSubmit`; `now` is `Date.now()` and `nowISO` is
`new Date().toISOString()`. -/
def handleSubmit (now : Int) (nowISO : JSString) (s : State) : State :=
  let (s1, valid) := validateForm s
  if !valid then s1
  else
    match s1.currentTask with
    | some cur =>
      { s1 with
        tasks := s1.tasks.map (fun task => if task.id = cur.id then newTask now nowISO s1 else task),
        showModal := false }
    | none =>
      { s1 with tasks := s1.tasks ++ [newTask now nowISO s1], showModal := false }

/-- `handleEdit`. -/
def handleEdit (s : State) (task : Task) : State :=
  { s with
    currentTask := some task,
    formData :=
      { title := task.title, startDate := task.startDate, endDate := task.endDate,
        priority := task.priority, description := task.description },
    showModal := true }

/-- `handleAddTask`. -/
def handleAddTask (s : State) : State :=
  { s with
    currentTask := none,
    formData :=
      { title := [], startDate := [], endDate := [], priority := utf16 "medium",
        description := [] },
    showModal := true }

/-- `handleStatusChange`: every task whose id is `taskId` becomes
`{ ...task, completed: status === 'completed' }`. -/
def handleStatusChange (s : State) (taskId : Int) (status : JSString) : State :=
  { s with
    tasks := s.tasks.map (fun task =>
      if task.id = taskId then { task with completed := decide (status = utf16 "completed") }
      else task) }

/-- `handleDelete`: the next state, and the delay in milliseconds of the
timeout it sets, whose callback is `setShowToast(false)`. -/
def handleDelete (s : State) (taskId : Int) : State × Nat :=
  ({ s with tasks := s.tasks.filter (fun task => task.id != taskId), showToast := true }, 3000)

/-! ## Sorting: `sortedTasks`

`new Date(string)` is the date parser of the platform; it is a parameter
`parseDate` of the definitions below, `none` where the string denotes no date
(the Date is invalid and its time value is NaN). -/

/-- The comparator of `sortedTasks`:
`new Date(b.createdAt) - new Date(a.createdAt)`, the difference of the two time
values; `none` is NaN. (The difference of two time values may be rounded, its
sign is not.) -/
def compareCreatedAt (parseDate : JSString → Option Int) (a b : Task) : Option Int :=
  match parseDate b.createdAt, parseDate a.createdAt with
  | some tb, some ta => some (tb - ta)
  | _, _ => none

/-- `x < y` on two time values, false when either is NaN. -/
def isBefore (x y : Option Int) : Bool :=
  match x, y with
  | some tx, some ty => decide (tx < ty)
  | _, _ => false

/-- SortCompare of ECMA-262 on the value of the comparator: `a` goes after `b`
when the value is positive; NaN counts as 0. -/
def sortsAfter {α : Type} (comparator : α → α → Option Int) (a b : α) : Bool :=
  match comparator a b with
  | some v => decide (0 < v)
  | none => false

/-- Inserts `a` in front of the first element it does not go after. -/
def insertSorted {α : Type} (comparator : α → α → Option Int) (a : α) : List α → List α
  | [] => [a]
  | b :: rest =>
    if sortsAfter comparator a b then b :: insertSorted comparator a rest else a :: b :: rest

/-- `Array.prototype.sort(comparator)` under a consistent comparator. The sort
is stable (ECMA-262 since 2019), so under a consistent comparator its result is
the one of every stable sorting algorithm; this is insertion from the right.
The comparator of `sortedTasks` is consistent when every `createdAt` denotes a
date. Where it is not (some value is NaN) ECMA-262 leaves the order to the
engine and this definition is not the order of an engine in general; the
general statements about the sort below assume that every `createdAt` denotes
a date, and the two evaluations at a collection with an undated task are at
`[pendingTask, undatedTask, laterPendingTask]` and its filtered part, where
V8 gives the same order (it finds one non-descending run, which it keeps, and
one descending run of two, which it reverses). -/
def arraySort {α : Type} (comparator : α → α → Option Int) : List α → List α
  | [] => []
  | a :: rest => insertSorted comparator a (arraySort comparator rest)

/-- The statement `const sortedTasks = [...filteredTasks].sort(comparator)`.
`sort` reorders the array it is called on and returns it; here that array is
the copy the spread makes. The pair is `filteredTasks` after the statement and
`sortedTasks`. -/
def sortStatement (parseDate : JSString → Option Int) (filteredTasks : List Task) :
    List Task × List Task :=
  let copy := filteredTasks
  (filteredTasks, arraySort (compareCreatedAt parseDate) copy)

/-- `sortedTasks`. -/
def sortedTasks (parseDate : JSString → Option Int) (filteredTasks : List Task) : List Task :=
  (sortStatement parseDate filteredTasks).2

/-! ## JSON: the built-ins `JSON.stringify` and `JSON.parse` (ECMA-262, 25.5) -/

/-- A JavaScript value of the kinds `JSON.parse` returns. A number is held as
the exact rational value of its literal, which is the JavaScript number
whenever that value is a safe integer (as every id written by `Date.now()`
is); the order in which an object lists integer-like keys is not modelled (the
task schema has none). -/
inductive JVal where
  | null
  | bool (b : Bool)
  | num (q : ℚ)
  | str (s : JSString)
  | arr (items : List JVal)
  | obj (members : List (JSString × JVal))

/-- The exceptions of the model: `JSON.parse` throws a SyntaxError. -/
inductive JSError where
  | syntaxError
  deriving DecidableEq, Repr

/-- One lower-case hexadecimal digit, as a code unit. -/
def hexDigit (n : Nat) : Nat :=
  if n < 10 then 0x30 + n else 0x61 + (n - 10)

/-- UnicodeEscape of ECMA-262: a code unit written as a backslash, `u` and four
hexadecimal digits. -/
def unicodeEscape (c : Nat) : List Nat :=
  [0x5C, 0x75, hexDigit (c / 4096 % 16), hexDigit (c / 256 % 16), hexDigit (c / 16 % 16),
    hexDigit (c % 16)]

/-- Leading surrogates, U+D800 to U+DBFF. -/
def isHighSurrogate (c : Nat) : Bool := 0xD800 ≤ c && c ≤ 0xDBFF
/-- Trailing surrogates, U+DC00 to U+DFFF. -/
def isLowSurrogate (c : Nat) : Bool := 0xDC00 ≤ c && c ≤ 0xDFFF

/-- QuoteJSONString on one code point that is a single code unit: the short
escapes, then UnicodeEscape for a control character or a lone surrogate, else
the unit itself. -/
def quoteUnit (c : Nat) : List Nat :=
  if c = 0x08 then [0x5C, 0x62]
  else if c = 0x09 then [0x5C, 0x74]
  else if c = 0x0A then [0x5C, 0x6E]
  else if c = 0x0C then [0x5C, 0x66]
  else if c = 0x0D then [0x5C, 0x72]
  else if c = 0x22 then [0x5C, 0x22]
  else if c = 0x5C then [0x5C, 0x5C]
  else if c < 0x20 || isHighSurrogate c || isLowSurrogate c then unicodeEscape c
  else [c]

/-- QuoteJSONString on the code points of a string: a leading surrogate
followed by a trailing one is one code point and is written as it is. -/
def quoteUnits : List Nat → List Nat
  | [] => []
  | [c] => quoteUnit c
  | c :: d :: rest =>
    if isHighSurrogate c && isLowSurrogate d then c :: d :: quoteUnits rest
    else quoteUnit c ++ quoteUnits (d :: rest)

/-- QuoteJSONString: the quoted form of a string. -/
def quoteJSONString (s : JSString) : List Nat :=
  0x22 :: (quoteUnits s ++ [0x22])

/-- Decimal digits of a natural number, most significant first. -/
def natToString (n : Nat) : List Nat :=
  if n = 0 then [0x30] else ((Nat.digits 10 n).reverse).map (fun d => 0x30 + d)

/-- Number::toString on an integer (it agrees with JavaScript below 10^21 in
magnitude, so on every safe integer). -/
def intToString (n : Int) : List Nat :=
  if n < 0 then 0x2D :: natToString n.natAbs else natToString n.natAbs

/-- JSON white space: space, tab, line feed, carriage return. -/
def isJsonWs (c : Nat) : Bool := c == 0x20 || c == 0x09 || c == 0x0A || c == 0x0D
/-- Drops leading JSON white space. -/
def skipWs (s : List Nat) : List Nat := s.dropWhile isJsonWs

/-- Value of a hexadecimal digit, either case. -/
def hexVal (c : Nat) : Option Nat :=
  if 0x30 ≤ c ∧ c ≤ 0x39 then some (c - 0x30)
  else if 0x61 ≤ c ∧ c ≤ 0x66 then some (c - 0x61 + 10)
  else if 0x41 ≤ c ∧ c ≤ 0x46 then some (c - 0x41 + 10)
  else none

/-- The code unit a single-character escape stands for. -/
def unescape (e : Nat) : Option Nat :=
  if e = 0x22 then some 0x22
  else if e = 0x5C then some 0x5C
  else if e = 0x2F then some 0x2F
  else if e = 0x62 then some 0x08
  else if e = 0x66 then some 0x0C
  else if e = 0x6E then some 0x0A
  else if e = 0x72 then some 0x0D
  else if e = 0x74 then some 0x09
  else none

/-- The characters of a JSON string literal after its opening quote, up to
and including the closing quote: the string read and the text left. -/
def parseStringChars : Nat → List Nat → Option (JSString × List Nat)
  | 0, _ => none
  | _ + 1, [] => none
  | fuel + 1, c :: rest =>
    if c = 0x22 then some ([], rest)
    else if c = 0x5C then
      match rest with
      | [] => none
      | e :: rest1 =>
        if e = 0x75 then
          match rest1 with
          | h1 :: h2 :: h3 :: h4 :: rest2 =>
            match hexVal h1, hexVal h2, hexVal h3, hexVal h4 with
            | some a, some b, some c3, some d =>
              (parseStringChars fuel rest2).map
                (fun r => ((a * 4096 + b * 256 + c3 * 16 + d) :: r.1, r.2))
            | _, _, _, _ => none
          | _ => none
        else
          match unescape e with
          | some u => (parseStringChars fuel rest1).map (fun r => (u :: r.1, r.2))
          | none => none
    else if c < 0x20 then none
    else (parseStringChars fuel rest).map (fun r => (c :: r.1, r.2))

/-- Decimal digits `0` to `9`. -/
def isDigit (c : Nat) : Bool := 0x30 ≤ c && c ≤ 0x39

/-- Value of a run of decimal digits. -/
def digitsValue (ds : List Nat) : Nat :=
  ds.foldl (fun acc d => acc * 10 + (d - 0x30)) 0

/-- The integer part of a JSON number: `0` alone, or digits not starting with
`0`. -/
def parseIntPart (s : List Nat) : Option (Nat × List Nat) :=
  match s with
  | [] => none
  | c :: rest =>
    if c = 0x30 then some (0, rest)
    else if isDigit c then some (digitsValue (s.takeWhile isDigit), s.dropWhile isDigit)
    else none

/-- The optional fraction of a JSON number: a dot and at least one digit. -/
def parseFraction (s : List Nat) : Option (ℚ × List Nat) :=
  match s with
  | c :: rest =>
    if c = 0x2E then
      if (rest.takeWhile isDigit).isEmpty then none
      else some ((digitsValue (rest.takeWhile isDigit) : ℚ) / 10 ^ (rest.takeWhile isDigit).length,
        rest.dropWhile isDigit)
    else some (0, s)
  | [] => some (0, s)

/-- The digits of an exponent, at least one. -/
def parseExpDigits (s : List Nat) : Option (Nat × List Nat) :=
  if (s.takeWhile isDigit).isEmpty then none
  else some (digitsValue (s.takeWhile isDigit), s.dropWhile isDigit)

/-- The optional exponent of a JSON number. -/
def parseExponent (s : List Nat) : Option (Int × List Nat) :=
  match s with
  | c :: rest =>
    if c = 0x65 ∨ c = 0x45 then
      match rest with
      | sgn :: rest1 =>
        if sgn = 0x2D then (parseExpDigits rest1).map (fun r => (-(r.1 : Int), r.2))
        else if sgn = 0x2B then (parseExpDigits rest1).map (fun r => ((r.1 : Int), r.2))
        else (parseExpDigits rest).map (fun r => ((r.1 : Int), r.2))
      | [] => none
    else some (0, s)
  | [] => some (0, s)

/-- A JSON number: optional minus, integer part, optional fraction, optional
exponent; its exact value and the text left. -/
def parseNumber (s : List Nat) : Option (ℚ × List Nat) :=
  let neg := s.head? = some 0x2D
  let s0 := if neg then s.tail else s
  match parseIntPart s0 with
  | none => none
  | some (ip, s1) =>
    match parseFraction s1 with
    | none => none
    | some (fr, s2) =>
      match parseExponent s2 with
      | none => none
      | some (ex, s3) =>
        some ((if neg then -1 else 1) * ((ip : ℚ) + fr) * (10 : ℚ) ^ ex, s3)

/-- CreateDataProperty while an object literal is read: a key seen before keeps
its place and takes the new value. -/
def insertMember (members : List (JSString × JVal)) (kv : JSString × JVal) :
    List (JSString × JVal) :=
  match members with
  | [] => [kv]
  | (k, v) :: rest => if k = kv.1 then (k, kv.2) :: rest else (k, v) :: insertMember rest kv

/-- The object made of the members read, in order. -/
def mkObject (members : List (JSString × JVal)) : JVal :=
  JVal.obj (members.foldl insertMember [])

mutual
/-- A JSON value at the head of the text: the value and the text left. -/
def parseValue : Nat → List Nat → Option (JVal × List Nat)
  | 0, _ => none
  | _ + 1, [] => none
  | fuel + 1, c :: rest =>
    if c = 0x7B then
      match skipWs rest with
      | [] => none
      | d :: rest1 =>
        if d = 0x7D then some (JVal.obj [], rest1)
        else (parseMembers fuel (d :: rest1)).map (fun r => (mkObject r.1, r.2))
    else if c = 0x5B then
      match skipWs rest with
      | [] => none
      | d :: rest1 =>
        if d = 0x5D then some (JVal.arr [], rest1)
        else (parseElements fuel (d :: rest1)).map (fun r => (JVal.arr r.1, r.2))
    else if c = 0x22 then
      (parseStringChars (rest.length + 1) rest).map (fun r => (JVal.str r.1, r.2))
    else if c = 0x74 then
      match rest with
      | 0x72 :: 0x75 :: 0x65 :: rest1 => some (JVal.bool true, rest1)
      | _ => none
    else if c = 0x66 then
      match rest with
      | 0x61 :: 0x6C :: 0x73 :: 0x65 :: rest1 => some (JVal.bool false, rest1)
      | _ => none
    else if c = 0x6E then
      match rest with
      | 0x75 :: 0x6C :: 0x6C :: rest1 => some (JVal.null, rest1)
      | _ => none
    else (parseNumber (c :: rest)).map (fun r => (JVal.num r.1, r.2))
/-- The elements of an array after `[`, up to and including `]`. -/
def parseElements : Nat → List Nat → Option (List JVal × List Nat)
  | 0, _ => none
  | fuel + 1, s =>
    match parseValue fuel (skipWs s) with
    | none => none
    | some (v, s1) =>
      match skipWs s1 with
      | [] => none
      | d :: rest =>
        if d = 0x2C then (parseElements fuel rest).map (fun r => (v :: r.1, r.2))
        else if d = 0x5D then some ([v], rest)
        else none
/-- The members of an object after `{`, up to and including `}`. -/
def parseMembers : Nat → List Nat → Option (List (JSString × JVal) × List Nat)
  | 0, _ => none
  | fuel + 1, s =>
    match skipWs s with
    | [] => none
    | q :: s1 =>
      if q = 0x22 then
        match parseStringChars (s1.length + 1) s1 with
        | none => none
        | some (key, s2) =>
          match skipWs s2 with
          | [] => none
          | colon :: s3 =>
            if colon = 0x3A then
              match parseValue fuel (skipWs s3) with
              | none => none
              | some (v, s4) =>
                match skipWs s4 with
                | [] => none
                | d :: rest =>
                  if d = 0x2C then (parseMembers fuel rest).map (fun r => ((key, v) :: r.1, r.2))
                  else if d = 0x7D then some ([(key, v)], rest)
                  else none
            else none
      else none
end

/-- `JSON.parse(text)`: one JSON value between optional white space, or a
SyntaxError. The fuel is never used up: a call of `parseElements` or of
`parseMembers` follows a character read (a bracket, a brace or a comma), and
between two of them lies at most one call of `parseValue`, so no chain of calls
is longer than twice the length of the text plus one. -/
def JSON.parse (text : JSString) : Except JSError JVal :=
  match parseValue (2 * text.length + 2) (skipWs text) with
  | none => Except.error JSError.syntaxError
  | some (v, rest) => if (skipWs rest).isEmpty then Except.ok v else Except.error JSError.syntaxError

/-- The text of a boolean. -/
def boolToString (b : Bool) : List Nat :=
  if b then utf16 "true" else utf16 "false"

/-- `JSON.stringify` on one task object: its eight properties in the order
`handleSubmit` creates them, no white space. -/
def stringifyTask (t : Task) : List Nat :=
  utf16 "\x7b" ++ quoteJSONString (utf16 "id") ++ utf16 ":" ++ intToString t.id ++
  utf16 "," ++ quoteJSONString (utf16 "title") ++ utf16 ":" ++ quoteJSONString t.title ++
  utf16 "," ++ quoteJSONString (utf16 "startDate") ++ utf16 ":" ++ quoteJSONString t.startDate ++
  utf16 "," ++ quoteJSONString (utf16 "endDate") ++ utf16 ":" ++ quoteJSONString t.endDate ++
  utf16 "," ++ quoteJSONString (utf16 "priority") ++ utf16 ":" ++ quoteJSONString t.priority ++
  utf16 "," ++ quoteJSONString (utf16 "description") ++ utf16 ":" ++
    quoteJSONString t.description ++
  utf16 "," ++ quoteJSONString (utf16 "completed") ++ utf16 ":" ++
    boolToString t.completed ++
  utf16 "," ++ quoteJSONString (utf16 "createdAt") ++ utf16 ":" ++ quoteJSONString t.createdAt ++
  utf16 "\x7d"

/-- The text of an array after its first element: each further element after
a comma, then `]`. -/
def stringifyMore : List Task → List Nat
  | [] => utf16 "]"
  | t :: rest => utf16 "," ++ stringifyTask t ++ stringifyMore rest

/-- `JSON.stringify(tasks)` on an array of task objects. -/
def JSON.stringify : List Task → JSString
  | [] => utf16 "[]"
  | t :: rest => utf16 "[" ++ stringifyTask t ++ stringifyMore rest

/-- The JavaScript object a task is. -/
def Task.toJVal (t : Task) : JVal :=
  JVal.obj
    [ (utf16 "id", JVal.num (t.id : ℚ)),
      (utf16 "title", JVal.str t.title),
      (utf16 "startDate", JVal.str t.startDate),
      (utf16 "endDate", JVal.str t.endDate),
      (utf16 "priority", JVal.str t.priority),
      (utf16 "description", JVal.str t.description),
      (utf16 "completed", JVal.bool t.completed),
      (utf16 "createdAt", JVal.str t.createdAt) ]

/-- The JavaScript array a collection of tasks is. -/
def tasksValue (tasks : List Task) : JVal :=
  JVal.arr (tasks.map Task.toJVal)

/-- The initializer of the `tasks` state:
`storedTasks ? JSON.parse(storedTasks) : []`. -/
def load (store : Storage) : Except JSError JVal :=
  match getItem store (utf16 "tasks") with
  | none => Except.ok (JVal.arr [])
  | some storedTasks =>
    if truthyStr storedTasks then JSON.parse storedTasks else Except.ok (JVal.arr [])

/-- The write of the effect on `tasks`:
`localStorage.setItem('tasks', JSON.stringify(tasks))`. -/
def persist (tasks : List Task) (store : Storage) : Storage :=
  setItem store (utf16 "tasks") (JSON.stringify tasks)

/-- The state the component starts in, on the collection `load` returned. -/
def initialState (tasks : List Task) : State :=
  { tasks := tasks,
    showModal := false,
    currentTask := none,
    formData :=
      { title := [], startDate := [], endDate := [], priority := utf16 "medium",
        description := [] },
    errors := { title := none, startDate := none, endDate := none },
    currentFilter := utf16 "all",
    showToast := false }

/-- The form of the scenario of the specification: title "Write spec", from
2024-01-01 to 2024-01-03, priority "important", no description. -/
def writeSpecForm : TaskForm :=
  { title := utf16 "Write spec",
    startDate := utf16 "2024-01-01",
    endDate := utf16 "2024-01-03",
    priority := utf16 "important",
    description := [] }

/-- A pending task. -/
def pendingTask : Task :=
  { id := 1700000000000,
    title := utf16 "Write spec",
    startDate := utf16 "2024-01-01",
    endDate := utf16 "2024-01-03",
    priority := utf16 "important",
    description := [],
    completed := false,
    createdAt := utf16 "2023-11-14T22:13:20.000Z" }

/-- A completed task. -/
def completedTask : Task :=
  { id := 1700000000001,
    title := utf16 "Review",
    startDate := utf16 "2024-02-01",
    endDate := utf16 "2024-02-01",
    priority := utf16 "medium",
    description := utf16 "second reading",
    completed := true,
    createdAt := utf16 "2023-11-14T22:13:20.001Z" }

/-- A completed task whose id is 0. -/
def taskWithIdZero : Task :=
  { id := 0,
    title := utf16 "Write spec",
    startDate := utf16 "2024-01-01",
    endDate := utf16 "2024-01-03",
    priority := utf16 "important",
    description := [],
    completed := true,
    createdAt := utf16 "2024-01-01T09:00:00.000Z" }

/-- The form "Write spec" with the end date one day before the start date. -/
def endBeforeStartForm : TaskForm :=
  { title := utf16 "Write spec",
    startDate := utf16 "2024-01-03",
    endDate := utf16 "2024-01-02",
    priority := utf16 "important",
    description := [] }

/-- The modal is open on an edit of `completedTask`, with the form
"Write spec", while the collection holds `pendingTask` only: no task of the
collection has the id of the task being edited. -/
def staleEditState : State :=
  { tasks := [pendingTask],
    showModal := true,
    currentTask := some completedTask,
    formData := writeSpecForm,
    errors := { title := none, startDate := none, endDate := none },
    currentFilter := utf16 "all",
    showToast := false }

/-- The time values of the `createdAt` strings of `pendingTask` and
`completedTask`, and no date for any other string. -/
def sampleParseDate (s : JSString) : Option Int :=
  if s = utf16 "2023-11-14T22:13:20.000Z" then some 1700000000000
  else if s = utf16 "2023-11-14T22:13:20.001Z" then some 1700000000001
  else none

/-! ## Editing the form: `handleChange` -/

/-- `{ ...formData, [name]: value }` for the name of one of the five inputs of
the form. No input has another name; on another name the five fields stay as
they are. -/
def setField (f : TaskForm) (name value : JSString) : TaskForm :=
  if name = utf16 "title" then { f with title := value }
  else if name = utf16 "startDate" then { f with startDate := value }
  else if name = utf16 "endDate" then { f with endDate := value }
  else if name = utf16 "priority" then { f with priority := value }
  else if name = utf16 "description" then { f with description := value }
  else f

/-- `errors[name]`. -/
def FormErrors.get (e : FormErrors) (name : JSString) : Option JSString :=
  if name = utf16 "title" then e.title
  else if name = utf16 "startDate" then e.startDate
  else if name = utf16 "endDate" then e.endDate
  else none

/-- `{ ...errors, [name]: null }`; a message that is `null` and a message that
is absent are both `none`. -/
def FormErrors.clear (e : FormErrors) (name : JSString) : FormErrors :=
  if name = utf16 "title" then { e with title := none }
  else if name = utf16 "startDate" then { e with startDate := none }
  else if name = utf16 "endDate" then { e with endDate := none }
  else e

/-- `handleChange` on the event of the input called `name` taking `value`.
The second `setFormData` is a functional update, so it applies to the form the
first one produced. -/
def handleChange (s : State) (name value : JSString) : State :=
  let formData1 := setField s.formData name value
  let errors1 := if truthyItem (s.errors.get name) then s.errors.clear name else s.errors
  let formData2 :=
    if name = utf16 "startDate" ∧ truthyStr s.formData.endDate = true ∧
        jsGt value s.formData.endDate = true then
      { formData1 with endDate := [] }
    else formData1
  { s with formData := formData2, errors := errors1 }

/-! ## The delete notice in time

`setTimeout(callback, 3000)` runs the callback once, 3000 ms later at the
earliest. A page in time is the component state, the instant in milliseconds,
and the instants at which the pending `setShowToast(false)` callbacks are
due. -/

/-- The component at an instant, with its pending timeouts. -/
structure Page where
  state : State
  clock : Nat
  timeouts : List Nat
  deriving DecidableEq, Repr

/-- A click on a delete button at the instant of the page: `handleDelete` runs
and its timeout is pending from then on. No pending timeout is cleared
(the source never calls `clearTimeout`). -/
def clickDelete (p : Page) (taskId : Int) : Page :=
  { state := (handleDelete p.state taskId).1,
    clock := p.clock,
    timeouts := p.timeouts ++ [p.clock + (handleDelete p.state taskId).2] }

/-- Time passes until the instant `t`: the timeouts due by then have run, each
one `setShowToast(false)`, and the others stay pending. -/
def advanceTo (p : Page) (t : Nat) : Page :=
  { state :=
      if p.timeouts.any (fun due => decide (due ≤ t)) then { p.state with showToast := false }
      else p.state,
    clock := max p.clock t,
    timeouts := p.timeouts.filter (fun due => decide (t < due)) }

/-! ## Calendar dates

The chronological order of two dates is the order of their day numbers: the
days of the years before, of the months before, and the day of the month. -/

/-- Leap years of the Gregorian calendar. -/
def isLeapYear (y : Nat) : Bool :=
  y % 4 == 0 && (y % 100 != 0 || y % 400 == 0)

/-- Days of the month `m` (1 to 12) in a leap or a common year. -/
def monthLength (leap : Bool) (m : Nat) : Nat :=
  if m = 2 then (if leap then 29 else 28)
  else if m = 4 ∨ m = 6 ∨ m = 9 ∨ m = 11 then 30
  else 31

/-- Days of the year `y`. -/
def yearLength (y : Nat) : Nat :=
  if isLeapYear y then 366 else 365

/-- Days of the months before the month `m` in a leap or a common year. -/
def daysBeforeMonth (leap : Bool) (m : Nat) : Nat :=
  ((List.range (m - 1)).map (fun i => monthLength leap (i + 1))).sum

/-- Days of the years 0 to `y - 1`. -/
def daysBeforeYear (y : Nat) : Nat :=
  ((List.range y).map yearLength).sum

/-- The day number of the date (year, month, day). -/
def dayNumber (date : Nat × Nat × Nat) : Nat :=
  daysBeforeYear date.1 + daysBeforeMonth (isLeapYear date.1) date.2.1 + date.2.2

/-- The lexicographic order of (year, month, day). -/
def lexBefore (a b : Nat × Nat × Nat) : Prop :=
  a.1 < b.1 ∨ (a.1 = b.1 ∧ (a.2.1 < b.2.1 ∨ (a.2.1 = b.2.1 ∧ a.2.2 < b.2.2)))

/-- A date of the calendar: the month from 1 to 12, the day from 1 to the
length of the month. -/
def isCalendarDate (a : Nat × Nat × Nat) : Prop :=
  1 ≤ a.2.1 ∧ a.2.1 ≤ 12 ∧ 1 ≤ a.2.2 ∧ a.2.2 ≤ monthLength (isLeapYear a.1) a.2.1

/-- The date a string of the form YYYY-MM-DD stands for: four digits, a hyphen,
two digits, a hyphen, two digits, the month from 01 to 12 and the day from 01
to the length of the month; `none` for any other string. -/
def parseYMD (s : JSString) : Option (Nat × Nat × Nat) :=
  match s with
  | [y1, y2, y3, y4, h1, m1, m2, h2, d1, d2] =>
    let y := 1000 * (y1 - 0x30) + 100 * (y2 - 0x30) + 10 * (y3 - 0x30) + (y4 - 0x30)
    let m := 10 * (m1 - 0x30) + (m2 - 0x30)
    let d := 10 * (d1 - 0x30) + (d2 - 0x30)
    if isDigit y1 && isDigit y2 && isDigit y3 && isDigit y4 && h1 == 0x2D &&
        isDigit m1 && isDigit m2 && h2 == 0x2D && isDigit d1 && isDigit d2 &&
        decide (1 ≤ m) && decide (m ≤ 12) && decide (1 ≤ d) &&
        decide (d ≤ monthLength (isLeapYear y) m) then
      some (y, m, d)
    else none
  | _ => none

/-! ## More sample data -/

/-- A completed task whose `createdAt` is the empty string, which denotes no
date. -/
def undatedTask : Task :=
  { id := 1700000000002,
    title := utf16 "Archive",
    startDate := utf16 "2024-03-01",
    endDate := utf16 "2024-03-02",
    priority := utf16 "least",
    description := [],
    completed := true,
    createdAt := [] }

/-- A pending task created one millisecond after `pendingTask`. -/
def laterPendingTask : Task :=
  { id := 1700000000001,
    title := utf16 "Review",
    startDate := utf16 "2024-02-01",
    endDate := utf16 "2024-02-01",
    priority := utf16 "medium",
    description := [],
    completed := false,
    createdAt := utf16 "2023-11-14T22:13:20.001Z" }

/-- The page at the instant 0 on a collection of two tasks, no timeout
pending. -/
def samplePage : Page :=
  { state := initialState [pendingTask, completedTask], clock := 0, timeouts := [] }

end TaskTracker

namespace TaskTracker

/-! ## Storage and string lemmas -/

theorem getItem_setItem_same (store : Storage) (key value : JSString) :
    getItem (setItem store key value) key = some value := by
  induction store with
  | nil => simp [setItem, getItem]
  | cons kv rest ih =>
    obtain ⟨k, v⟩ := kv
    by_cases h : k = key
    · simp [setItem, getItem, h]
    · simp [setItem, getItem, h, ih]

theorem truthyStr_iff (s : JSString) : truthyStr s = true ↔ s ≠ [] := by
  cases s <;> simp [truthyStr]

theorem truthyStr_false_iff (s : JSString) : truthyStr s = false ↔ s = [] := by
  cases s <;> simp [truthyStr]

theorem trim_nil : trim [] = [] := by
  simp [trim]

theorem ne_nil_of_trim_ne_nil (s : JSString) (h : trim s ≠ []) : s ≠ [] := by
  intro hs
  exact h (by rw [hs, trim_nil])

theorem completed_ne_pending : utf16 "pending" ≠ utf16 "completed" := by
  decide

theorem filterPred_completed (task : Task) :
    filterPred (utf16 "completed") task = task.completed := by
  simp [filterPred]

theorem filterPred_pending (task : Task) :
    filterPred (utf16 "pending") task = !task.completed := by
  simp [filterPred, completed_ne_pending]

/-! ## JSON: reading back what `JSON.stringify` wrote -/

theorem hexVal_hexDigit (k : Nat) (hk : k < 16) : hexVal (hexDigit k) = some k := by
  interval_cases k <;> decide

theorem hex_recompose (c : Nat) (hc : c < 65536) :
    c / 4096 % 16 * 4096 + c / 256 % 16 * 256 + c / 16 % 16 * 16 + c % 16 = c := by
  omega

theorem parseStringChars_unicodeEscape (fuel c : Nat) (hc : c < 65536) (tail : List Nat) :
    parseStringChars (fuel + 1) (unicodeEscape c ++ tail) =
      (parseStringChars fuel tail).map (fun r => (c :: r.1, r.2)) := by
  have h1 := hexVal_hexDigit (c / 4096 % 16) (Nat.mod_lt _ (by norm_num))
  have h2 := hexVal_hexDigit (c / 256 % 16) (Nat.mod_lt _ (by norm_num))
  have h3 := hexVal_hexDigit (c / 16 % 16) (Nat.mod_lt _ (by norm_num))
  have h4 := hexVal_hexDigit (c % 16) (Nat.mod_lt _ (by norm_num))
  simp [unicodeEscape, parseStringChars, h1, h2, h3, h4, hex_recompose c hc]

/-- Reading the quoted form of one code unit gives the unit back. -/
theorem parseStringChars_quoteUnit (fuel c : Nat) (tail : List Nat) :
    parseStringChars (fuel + 1) (quoteUnit c ++ tail) =
      (parseStringChars fuel tail).map (fun r => (c :: r.1, r.2)) := by
  unfold quoteUnit
  split_ifs with h8 h9 hA hC hD h22 h5C hesc
  · subst h8; simp [parseStringChars, unescape]
  · subst h9; simp [parseStringChars, unescape]
  · subst hA; simp [parseStringChars, unescape]
  · subst hC; simp [parseStringChars, unescape]
  · subst hD; simp [parseStringChars, unescape]
  · subst h22; simp [parseStringChars, unescape]
  · subst h5C; simp [parseStringChars, unescape]
  · apply parseStringChars_unicodeEscape
    simp only [isHighSurrogate, isLowSurrogate, Bool.or_eq_true, Bool.and_eq_true,
      decide_eq_true_eq] at hesc
    omega
  · simp only [isHighSurrogate, isLowSurrogate, Bool.or_eq_true, Bool.and_eq_true,
      decide_eq_true_eq] at hesc
    have hlt : ¬ c < 0x20 := fun h => hesc (Or.inl (Or.inl h))
    simp [parseStringChars, h22, h5C, hlt]

/-- Reading the quoted form of a string, up to the closing quote, gives the
string back and leaves what follows the quote. -/
theorem parseStringChars_quoteUnits (s : JSString) :
    ∀ (fuel : Nat) (rest : List Nat), s.length < fuel →
      parseStringChars fuel (quoteUnits s ++ 0x22 :: rest) = some (s, rest) := by
  induction s using quoteUnits.induct with
  | case1 =>
    intro fuel rest hf
    obtain ⟨f, rfl⟩ : ∃ f, fuel = f + 1 := ⟨fuel - 1, by omega⟩
    simp [quoteUnits, parseStringChars]
  | case2 c =>
    intro fuel rest hf
    obtain ⟨f, rfl⟩ : ∃ f, fuel = f + 2 := ⟨fuel - 2, by simp at hf; omega⟩
    simp [quoteUnits, parseStringChars_quoteUnit, parseStringChars]
  | case3 c d tl hpair ih =>
    intro fuel rest hf
    obtain ⟨f, rfl⟩ : ∃ f, fuel = f + 2 := ⟨fuel - 2, by simp at hf; omega⟩
    have hf2 : tl.length < f := by simp at hf; omega
    simp only [isHighSurrogate, isLowSurrogate, Bool.and_eq_true, decide_eq_true_eq] at hpair
    have hc1 : c ≠ 0x22 := by omega
    have hc2 : c ≠ 0x5C := by omega
    have hc3 : ¬ c < 0x20 := by omega
    have hd1 : d ≠ 0x22 := by omega
    have hd2 : d ≠ 0x5C := by omega
    have hd3 : ¬ d < 0x20 := by omega
    have hq : quoteUnits (c :: d :: tl) = c :: d :: quoteUnits tl := by
      simp [quoteUnits, isHighSurrogate, isLowSurrogate, hpair]
    rw [hq]
    simp [parseStringChars, hc1, hc2, hc3, hd1, hd2, hd3, ih f rest hf2]
  | case4 c d tl hpair ih =>
    intro fuel rest hf
    obtain ⟨f, rfl⟩ : ∃ f, fuel = f + 1 := ⟨fuel - 1, by omega⟩
    have hf2 : (d :: tl).length < f := by simp at hf ⊢; omega
    have hq : quoteUnits (c :: d :: tl) = quoteUnit c ++ quoteUnits (d :: tl) := by
      simp [quoteUnits, hpair]
    rw [hq, List.append_assoc, parseStringChars_quoteUnit, ih f rest hf2]
    rfl

theorem one_le_length_quoteUnit (c : Nat) : 1 ≤ (quoteUnit c).length := by
  unfold quoteUnit
  split_ifs <;> simp [unicodeEscape]

theorem length_le_quoteUnits (s : JSString) : s.length ≤ (quoteUnits s).length := by
  induction s using quoteUnits.induct with
  | case1 => simp
  | case2 c => simpa [quoteUnits] using one_le_length_quoteUnit c
  | case3 c d tl hpair ih =>
    have hq : quoteUnits (c :: d :: tl) = c :: d :: quoteUnits tl := by
      simp only [quoteUnits, hpair, if_true]
    rw [hq]
    simp only [List.length_cons]
    omega
  | case4 c d tl hpair ih =>
    have hq : quoteUnits (c :: d :: tl) = quoteUnit c ++ quoteUnits (d :: tl) := by
      simp [quoteUnits, hpair]
    have h1 := one_le_length_quoteUnit c
    rw [hq, List.length_append]
    simp only [List.length_cons] at ih ⊢
    omega

/-- A string literal written by `quoteJSONString` is read back as that
string. -/
theorem parseValue_quoteJSONString (fuel : Nat) (s : JSString) (rest : List Nat) :
    parseValue (fuel + 1) (quoteJSONString s ++ rest) = some (JVal.str s, rest) := by
  have hlen := length_le_quoteUnits s
  have h := parseStringChars_quoteUnits s ((quoteUnits s ++ 0x22 :: rest).length + 1) rest
    (by simp only [List.length_append, List.length_cons]; omega)
  simp only [List.length_append, List.length_cons] at h
  simp only [quoteJSONString, List.cons_append, List.append_assoc, List.singleton_append,
    List.nil_append, parseValue]
  simp [h]

theorem digitsValue_append_singleton (ds : List Nat) (d : Nat) :
    digitsValue (ds ++ [d]) = digitsValue ds * 10 + (d - 0x30) := by
  simp [digitsValue, List.foldl_append]

theorem digitsValue_digits (L : List Nat) :
    digitsValue (L.reverse.map (fun d => 0x30 + d)) = Nat.ofDigits 10 L := by
  induction L with
  | nil => simp [digitsValue]
  | cons h t ih =>
    rw [List.reverse_cons, List.map_append, List.map_singleton, digitsValue_append_singleton, ih,
      Nat.ofDigits_cons]
    omega

/-- The digits `natToString` writes: all decimal digits, their value is the
number, and the first is `0` only for the number 0. -/
theorem natToString_spec (m : Nat) :
    ∃ c tl, natToString m = c :: tl ∧ (∀ x ∈ c :: tl, isDigit x = true) ∧
      digitsValue (c :: tl) = m ∧ (c = 0x30 → tl = []) := by
  by_cases hm : m = 0
  · subst hm
    exact ⟨0x30, [], by simp [natToString], by simp [isDigit], by simp [digitsValue], fun _ => rfl⟩
  · have hne : Nat.digits 10 m ≠ [] := Nat.digits_ne_nil_iff_ne_zero.2 hm
    have hrev : (Nat.digits 10 m).reverse ≠ [] := by simpa using hne
    obtain ⟨d, ds, hds⟩ := List.exists_cons_of_ne_nil hrev
    have hlast : (Nat.digits 10 m).getLast hne ≠ 0 := Nat.getLast_digit_ne_zero 10 hm
    have hd : d = (Nat.digits 10 m).getLast hne := by
      have := List.head_reverse (l := Nat.digits 10 m) hrev
      simp only [hds, List.head_cons] at this
      exact this
    have hall : ∀ x ∈ natToString m, isDigit x = true := by
      intro x hx
      simp only [natToString, hm, if_false, List.mem_map, List.mem_reverse] at hx
      obtain ⟨y, hy, rfl⟩ := hx
      have := Nat.digits_lt_base (by norm_num : 1 < 10) hy
      simp only [isDigit, Bool.and_eq_true, decide_eq_true_eq]
      omega
    have hval : digitsValue (natToString m) = m := by
      simp only [natToString, hm, if_false]
      rw [digitsValue_digits, Nat.ofDigits_digits]
    have hstr : natToString m = (0x30 + d) :: ds.map (fun d => 0x30 + d) := by
      simp [natToString, hm, hds]
    refine ⟨0x30 + d, ds.map (fun d => 0x30 + d), hstr, ?_, ?_, ?_⟩
    · rw [← hstr]; exact hall
    · rw [← hstr]; exact hval
    · intro h0
      exfalso
      apply hlast
      rw [← hd]
      omega

theorem parseIntPart_natToString (m : Nat) (more : List Nat) :
    parseIntPart (natToString m ++ 0x2C :: more) = some (m, 0x2C :: more) := by
  obtain ⟨c, tl, hstr, hall, hval, hzero⟩ := natToString_spec m
  rw [hstr]
  by_cases hc : c = 0x30
  · have htl := hzero hc
    subst htl
    subst hc
    simp [parseIntPart, ← hval, digitsValue]
  · have hcd : isDigit c = true := hall c (List.mem_cons_self _ _)
    have htake : ((c :: tl) ++ 0x2C :: more).takeWhile isDigit = c :: tl := by
      rw [List.takeWhile_append_of_pos hall]
      simp [List.takeWhile, isDigit]
    have hdrop : ((c :: tl) ++ 0x2C :: more).dropWhile isDigit = 0x2C :: more := by
      rw [List.dropWhile_append_of_pos hall]
      simp [List.dropWhile, isDigit]
    have hcons : c :: tl ++ 0x2C :: more = c :: (tl ++ 0x2C :: more) := rfl
    rw [hcons] at htake hdrop
    simp only [List.cons_append, parseIntPart, hc, if_false, hcd, if_true, htake, hdrop, hval]

/-- The text `intToString` writes for an integer, followed by a comma, is read
back as that integer. -/
theorem parseNumber_intToString (n : Int) (more : List Nat) :
    parseNumber (intToString n ++ 0x2C :: more) = some ((n : ℚ), 0x2C :: more) := by
  have hint := parseIntPart_natToString n.natAbs more
  obtain ⟨c, tl, hstr, hall, -, -⟩ := natToString_spec n.natAbs
  have hcd : isDigit c = true := hall c (List.mem_cons_self _ _)
  have hc : c ≠ 0x2D := by
    simp only [isDigit, Bool.and_eq_true, decide_eq_true_eq] at hcd
    omega
  by_cases hn : n < 0
  · have hq : ((n.natAbs : ℕ) : ℚ) = -(n : ℚ) := by
      rw [Nat.cast_natAbs, abs_of_neg hn, Int.cast_neg]
    simp [parseNumber, intToString, hn, hint, parseFraction, parseExponent, hq]
  · have hq : ((n.natAbs : ℕ) : ℚ) = (n : ℚ) := by
      rw [Nat.cast_natAbs, abs_of_nonneg (not_lt.1 hn)]
    have hhead : (natToString n.natAbs ++ 0x2C :: more).head? ≠ some 0x2D := by
      rw [hstr]
      simpa using hc
    simp only [parseNumber, intToString, hn, if_false, hhead, hint]
    simp [parseFraction, parseExponent, hq]

/-- An integer written by `intToString`, followed by a comma, is read back as
that number. -/
theorem parseValue_intToString (fuel : Nat) (n : Int) (more : List Nat) :
    parseValue (fuel + 1) (intToString n ++ 0x2C :: more) =
      some (JVal.num (n : ℚ), 0x2C :: more) := by
  have hnum := parseNumber_intToString n more
  obtain ⟨c, tl, hstr, hall, -, -⟩ := natToString_spec n.natAbs
  have hcd : isDigit c = true := hall c (List.mem_cons_self _ _)
  simp only [isDigit, Bool.and_eq_true, decide_eq_true_eq] at hcd
  by_cases hn : n < 0
  · simp only [intToString, hn, if_true, List.cons_append] at hnum ⊢
    simp [parseValue, hnum]
  · simp only [intToString, hn, if_false, hstr, List.cons_append] at hnum ⊢
    have h1 : c ≠ 0x7B := by omega
    have h2 : c ≠ 0x5B := by omega
    have h3 : c ≠ 0x22 := by omega
    have h4 : c ≠ 0x74 := by omega
    have h5 : c ≠ 0x66 := by omega
    have h6 : c ≠ 0x6E := by omega
    simp [parseValue, hnum, h1, h2, h3, h4, h5, h6]

/-- The text of a boolean is read back as that boolean. -/
theorem parseValue_boolToString (fuel : Nat) (b : Bool) (rest : List Nat) :
    parseValue (fuel + 1) (boolToString b ++ rest) = some (JVal.bool b, rest) := by
  have ht : utf16 "true" = [0x74, 0x72, 0x75, 0x65] := by decide
  have hf : utf16 "false" = [0x66, 0x61, 0x6C, 0x73, 0x65] := by decide
  cases b <;> simp [boolToString, ht, hf, parseValue]

/-- A text on which `parseValue` succeeds does not start with white space. -/
theorem skipWs_of_parseValue (fuel : Nat) (text : List Nat) (r : JVal × List Nat)
    (h : parseValue fuel text = some r) : skipWs text = text := by
  cases fuel with
  | zero => simp [parseValue] at h
  | succ f =>
    cases text with
    | nil => simp [skipWs]
    | cons c rest =>
      by_cases hws : isJsonWs c = true
      · exfalso
        simp only [isJsonWs, Bool.or_eq_true, beq_iff_eq] at hws
        rcases hws with ((h1 | h1) | h1) | h1 <;> subst h1 <;>
          simp [parseValue, parseNumber, parseIntPart, isDigit] at h
      · simp [skipWs, List.dropWhile, hws]

theorem skipWs_cons_of_not_ws (c : Nat) (rest : List Nat) (h : isJsonWs c = false) :
    skipWs (c :: rest) = c :: rest := by
  simp [skipWs, List.dropWhile, h]

theorem parseStringChars_key (key : JSString) (rest : List Nat) :
    parseStringChars ((quoteUnits key ++ 0x22 :: rest).length + 1) (quoteUnits key ++ 0x22 :: rest)
      = some (key, rest) := by
  have hlen := length_le_quoteUnits key
  exact parseStringChars_quoteUnits key _ rest
    (by simp only [List.length_append, List.length_cons]; omega)

/-- One member of an object followed by a comma: the member read, then the
members that follow. -/
theorem parseMembers_step (fuel : Nat) (key : JSString) (vt : List Nat) (v : JVal)
    (more : List Nat)
    (hv : parseValue fuel (vt ++ 0x2C :: more) = some (v, 0x2C :: more)) :
    parseMembers (fuel + 1) (quoteJSONString key ++ 0x3A :: (vt ++ 0x2C :: more)) =
      (parseMembers fuel more).map (fun r => ((key, v) :: r.1, r.2)) := by
  have hws := skipWs_of_parseValue fuel _ _ hv
  have hkey := parseStringChars_key key (0x3A :: (vt ++ 0x2C :: more))
  simp only [quoteJSONString, List.cons_append, List.append_assoc, List.singleton_append,
    List.nil_append, parseMembers]
  simp only [List.length_append, List.length_cons] at hkey
  simp [skipWs_cons_of_not_ws, isJsonWs, hkey, hws, hv]

/-- The last member of an object, followed by the closing brace. -/
theorem parseMembers_last (fuel : Nat) (key : JSString) (vt : List Nat) (v : JVal)
    (rest : List Nat)
    (hv : parseValue fuel (vt ++ 0x7D :: rest) = some (v, 0x7D :: rest)) :
    parseMembers (fuel + 1) (quoteJSONString key ++ 0x3A :: (vt ++ 0x7D :: rest)) =
      some ([(key, v)], rest) := by
  have hws := skipWs_of_parseValue fuel _ _ hv
  have hkey := parseStringChars_key key (0x3A :: (vt ++ 0x7D :: rest))
  simp only [quoteJSONString, List.cons_append, List.append_assoc, List.singleton_append,
    List.nil_append, parseMembers]
  simp only [List.length_append, List.length_cons] at hkey
  simp [skipWs_cons_of_not_ws, isJsonWs, hkey, hws, hv]

/-- An object whose first member starts right after the opening brace. -/
theorem parseValue_object (fuel : Nat) (key : JSString) (tail : List Nat) :
    parseValue (fuel + 1) (0x7B :: (quoteJSONString key ++ tail)) =
      (parseMembers fuel (quoteJSONString key ++ tail)).map (fun r => (mkObject r.1, r.2)) := by
  simp [parseValue, quoteJSONString, skipWs, List.dropWhile, isJsonWs]

/-- An array whose first element is an object right after the opening
bracket. -/
theorem parseValue_array (fuel : Nat) (tail : List Nat) :
    parseValue (fuel + 1) (0x5B :: 0x7B :: tail) =
      (parseElements fuel (0x7B :: tail)).map (fun r => (JVal.arr r.1, r.2)) := by
  simp [parseValue, skipWs_cons_of_not_ws, isJsonWs]

theorem stringifyTask_append (t : Task) (rest : List Nat) :
    stringifyTask t ++ rest =
      0x7B :: (quoteJSONString (utf16 "id") ++ 0x3A :: (intToString t.id ++ 0x2C ::
      (quoteJSONString (utf16 "title") ++ 0x3A :: (quoteJSONString t.title ++ 0x2C ::
      (quoteJSONString (utf16 "startDate") ++ 0x3A :: (quoteJSONString t.startDate ++ 0x2C ::
      (quoteJSONString (utf16 "endDate") ++ 0x3A :: (quoteJSONString t.endDate ++ 0x2C ::
      (quoteJSONString (utf16 "priority") ++ 0x3A :: (quoteJSONString t.priority ++ 0x2C ::
      (quoteJSONString (utf16 "description") ++ 0x3A :: (quoteJSONString t.description ++ 0x2C ::
      (quoteJSONString (utf16 "completed") ++ 0x3A :: (boolToString t.completed ++ 0x2C ::
      (quoteJSONString (utf16 "createdAt") ++ 0x3A :: (quoteJSONString t.createdAt ++ 0x7D ::
        rest)))))))))))))))) := by
  have h1 : utf16 "\x7b" = [0x7B] := by decide
  have h2 : utf16 "\x7d" = [0x7D] := by decide
  have h3 : utf16 ":" = [0x3A] := by decide
  have h4 : utf16 "," = [0x2C] := by decide
  simp only [stringifyTask, h1, h2, h3, h4, List.append_assoc, List.cons_append,
    List.nil_append]

theorem mkObject_task (t : Task) :
    mkObject
      [ (utf16 "id", JVal.num (t.id : ℚ)),
        (utf16 "title", JVal.str t.title),
        (utf16 "startDate", JVal.str t.startDate),
        (utf16 "endDate", JVal.str t.endDate),
        (utf16 "priority", JVal.str t.priority),
        (utf16 "description", JVal.str t.description),
        (utf16 "completed", JVal.bool t.completed),
        (utf16 "createdAt", JVal.str t.createdAt) ] = Task.toJVal t := by
  simp +decide [mkObject, insertMember, Task.toJVal]

/-- The text `JSON.stringify` writes for a task is read back as the object
the task is. -/
theorem parseValue_stringifyTask (fuel : Nat) (t : Task) (rest : List Nat) :
    parseValue (fuel + 10) (stringifyTask t ++ rest) = some (Task.toJVal t, rest) := by
  rw [stringifyTask_append, parseValue_object,
    parseMembers_step (fuel + 8) _ _ _ _ (parseValue_intToString _ _ _),
    parseMembers_step (fuel + 7) _ _ _ _ (parseValue_quoteJSONString _ _ _),
    parseMembers_step (fuel + 6) _ _ _ _ (parseValue_quoteJSONString _ _ _),
    parseMembers_step (fuel + 5) _ _ _ _ (parseValue_quoteJSONString _ _ _),
    parseMembers_step (fuel + 4) _ _ _ _ (parseValue_quoteJSONString _ _ _),
    parseMembers_step (fuel + 3) _ _ _ _ (parseValue_quoteJSONString _ _ _),
    parseMembers_step (fuel + 2) _ _ _ _ (parseValue_boolToString _ _ _),
    parseMembers_last (fuel + 1) _ _ _ _ (parseValue_quoteJSONString _ _ _)]
  simp only [Option.map_some', mkObject_task]

theorem stringifyMore_append (ts : List Task) (rest : List Nat) :
    stringifyMore ts ++ rest =
      match ts with
      | [] => 0x5D :: rest
      | t :: ts1 => 0x2C :: (stringifyTask t ++ (stringifyMore ts1 ++ rest)) := by
  have h1 : utf16 "]" = [0x5D] := by decide
  have h2 : utf16 "," = [0x2C] := by decide
  cases ts <;> simp [stringifyMore, h1, h2]

/-- One element of an array followed by a comma: the element read, then the
elements that follow. -/
theorem parseElements_step (fuel : Nat) (vt : List Nat) (v : JVal) (more : List Nat)
    (hv : parseValue fuel (vt ++ 0x2C :: more) = some (v, 0x2C :: more)) :
    parseElements (fuel + 1) (vt ++ 0x2C :: more) =
      (parseElements fuel more).map (fun r => (v :: r.1, r.2)) := by
  have hws := skipWs_of_parseValue fuel _ _ hv
  rw [parseElements, hws, hv]
  simp [skipWs_cons_of_not_ws, isJsonWs]

/-- The last element of an array, followed by the closing bracket. -/
theorem parseElements_last (fuel : Nat) (vt : List Nat) (v : JVal) (rest : List Nat)
    (hv : parseValue fuel (vt ++ 0x5D :: rest) = some (v, 0x5D :: rest)) :
    parseElements (fuel + 1) (vt ++ 0x5D :: rest) = some ([v], rest) := by
  have hws := skipWs_of_parseValue fuel _ _ hv
  rw [parseElements, hws, hv]
  simp [skipWs_cons_of_not_ws, isJsonWs]

/-- The elements `JSON.stringify` writes after `[` are read back as the
objects the tasks are. -/
theorem parseElements_stringify (ts : List Task) :
    ∀ (t : Task) (fuel : Nat) (rest : List Nat),
      parseElements (fuel + ts.length + 11) (stringifyTask t ++ (stringifyMore ts ++ rest)) =
        some ((t :: ts).map Task.toJVal, rest) := by
  induction ts with
  | nil =>
    intro t fuel rest
    rw [stringifyMore_append]
    exact parseElements_last (fuel + 10) _ _ _ (parseValue_stringifyTask fuel t _)
  | cons t1 ts1 ih =>
    intro t fuel rest
    have hfuel : fuel + (t1 :: ts1).length + 11 = (fuel + ts1.length + 1 + 10) + 1 := by
      simp only [List.length_cons]
      omega
    rw [hfuel, stringifyMore_append]
    rw [parseElements_step _ _ _ _ (parseValue_stringifyTask _ t _)]
    have hfuel2 : fuel + ts1.length + 1 + 10 = fuel + ts1.length + 11 := by omega
    rw [hfuel2, ih t1 fuel rest]
    simp

theorem length_quoteJSONString (s : JSString) :
    (quoteJSONString s).length = (quoteUnits s).length + 2 := by
  simp [quoteJSONString]

theorem length_stringifyTask_ge (t : Task) : 12 ≤ (stringifyTask t).length := by
  have h := congrArg List.length (stringifyTask_append t [])
  simp only [List.append_nil, List.length_cons, List.length_append, length_quoteJSONString,
    List.length_nil] at h
  omega

theorem length_le_stringifyMore (ts : List Task) : ts.length ≤ (stringifyMore ts).length := by
  induction ts with
  | nil => simp
  | cons t ts1 ih =>
    have h := length_stringifyTask_ge t
    simp only [stringifyMore, List.length_append, List.length_cons]
    omega

/-- `JSON.parse` reads the text `JSON.stringify` wrote for a collection back
as the array of the objects its tasks are. -/
theorem parse_stringify (tasks : List Task) :
    JSON.parse (JSON.stringify tasks) = Except.ok (tasksValue tasks) := by
  cases tasks with
  | nil =>
    have h : utf16 "[]" = [0x5B, 0x5D] := by decide
    simp [JSON.stringify, h, JSON.parse, parseValue, skipWs, List.dropWhile, isJsonWs,
      tasksValue]
  | cons t ts =>
    have h1 : utf16 "[" = [0x5B] := by decide
    have htext : JSON.stringify (t :: ts) = 0x5B :: (stringifyTask t ++ (stringifyMore ts ++ [])) := by
      simp [JSON.stringify, h1]
    have hlen1 := length_stringifyTask_ge t
    have hlen2 := length_le_stringifyMore ts
    obtain ⟨f, hf⟩ : ∃ f, 2 * ((stringifyTask t ++ (stringifyMore ts ++ [])).length + 1) + 2 =
        (f + ts.length + 11) + 1 :=
      ⟨2 * ((stringifyTask t ++ (stringifyMore ts ++ [])).length + 1) + 2 - ts.length - 12, by
        simp only [List.length_append, List.length_nil]
        omega⟩
    have hel := parseElements_stringify ts t f []
    have hobj : ∃ tail, stringifyTask t ++ (stringifyMore ts ++ []) = 0x7B :: tail :=
      ⟨_, stringifyTask_append t _⟩
    obtain ⟨tail, htail⟩ := hobj
    rw [htail] at hf hel
    rw [htext, htail]
    unfold JSON.parse
    rw [skipWs_cons_of_not_ws _ _ (by decide), List.length_cons, hf, parseValue_array, hel]
    simp [skipWs, tasksValue]

/-- What `persist` wrote for a collection is never the empty string. -/
theorem stringify_ne_nil (tasks : List Task) : JSON.stringify tasks ≠ [] := by
  have h0 : utf16 "[]" = [0x5B, 0x5D] := by decide
  have h1 : utf16 "[" = [0x5B] := by decide
  cases tasks <;> simp [JSON.stringify, h0, h1]

/-- Loading what `persist` wrote for a collection returns the array of the
objects its tasks are. -/
theorem load_persist (tasks : List Task) (store : Storage) :
    load (persist tasks store) = Except.ok (tasksValue tasks) := by
  simp [load, persist, getItem_setItem_same, (truthyStr_iff _).2 (stringify_ne_nil tasks),
    parse_stringify]

/-! ## Validation -/

/-- The form passes `validateForm` exactly when the title is not empty after
trimming, both dates are non-empty and the start date is not greater than the
end date. -/
theorem formErrors_isEmpty_iff (f : TaskForm) :
    (formErrors f).isEmpty = true ↔
      trim f.title ≠ [] ∧ f.startDate ≠ [] ∧ f.endDate ≠ [] ∧ jsGt f.startDate f.endDate = false := by
  simp only [← truthyStr_iff]
  unfold formErrors
  cases truthyStr (trim f.title) <;> cases truthyStr f.startDate <;>
    cases truthyStr f.endDate <;> cases jsGt f.startDate f.endDate <;>
    simp [FormErrors.isEmpty]

/-- In create mode a form that passes validation is appended as `newTask`. -/
theorem handleSubmit_create (now : Int) (nowISO : JSString) (s : State)
    (hmode : s.currentTask = none) (hvalid : (validateForm s).2 = true) :
    (handleSubmit now nowISO s).tasks =
      s.tasks ++ [newTask now nowISO { s with errors := formErrors s.formData }] := by
  simp only [validateForm] at hvalid
  simp [handleSubmit, validateForm, hvalid, hmode]

/-! ## Persistence -/

/-- C4: in create mode, for every collection and every form that passes
validation, loading what was persisted after the submission returns the array
of the earlier tasks followed by one new task, so exactly one more task than
before, and the end date of the new task is greater than or equal to its start
date. -/
theorem create_persist_load (now : Int) (nowISO : JSString) (s : State) (store : Storage)
    (hmode : s.currentTask = none) (hvalid : (validateForm s).2 = true) :
    ∃ t : Task,
      (handleSubmit now nowISO s).tasks = s.tasks ++ [t] ∧
      load (persist (handleSubmit now nowISO s).tasks store) =
        Except.ok (JVal.arr (s.tasks.map Task.toJVal ++ [Task.toJVal t])) ∧
      (s.tasks.map Task.toJVal ++ [Task.toJVal t]).length = s.tasks.length + 1 ∧
      jsGe t.endDate t.startDate = true := by
  refine ⟨newTask now nowISO { s with errors := formErrors s.formData }, ?_, ?_, ?_, ?_⟩
  · exact handleSubmit_create now nowISO s hmode hvalid
  · rw [handleSubmit_create now nowISO s hmode hvalid, load_persist]
    simp [tasksValue]
  · simp
  · have h := (formErrors_isEmpty_iff s.formData).1 hvalid
    simp only [jsGt] at h
    simp [newTask, jsGe, h.2.2.2]

/-- C4 at the empty collection, the empty storage and the form "Write spec". -/
theorem create_persist_load_witness :
    ({ initialState [] with formData := writeSpecForm } : State).currentTask = none ∧
    (validateForm { initialState [] with formData := writeSpecForm }).2 = true ∧
    ∃ t : Task,
      (handleSubmit 1700000000000 (utf16 "2023-11-14T22:13:20.000Z")
        { initialState [] with formData := writeSpecForm }).tasks = [] ++ [t] ∧
      load (persist (handleSubmit 1700000000000 (utf16 "2023-11-14T22:13:20.000Z")
        { initialState [] with formData := writeSpecForm }).tasks []) =
        Except.ok (JVal.arr (([] : List Task).map Task.toJVal ++ [Task.toJVal t])) ∧
      (([] : List Task).map Task.toJVal ++ [Task.toJVal t]).length = 0 + 1 ∧
      jsGe t.endDate t.startDate = true :=
  ⟨by decide, by decide,
    create_persist_load 1700000000000 (utf16 "2023-11-14T22:13:20.000Z")
      { initialState [] with formData := writeSpecForm } [] (by decide) (by decide)⟩

/-- C5, as stated, fails: with the text "not json" stored under 'tasks',
`JSON.parse` throws a SyntaxError and `load` throws it too, instead of
returning the empty collection. -/
theorem load_unparseable_throws :
    getItem [(utf16 "tasks", utf16 "not json")] (utf16 "tasks") = some (utf16 "not json") ∧
    JSON.parse (utf16 "not json") = Except.error JSError.syntaxError ∧
    load [(utf16 "tasks", utf16 "not json")] = Except.error JSError.syntaxError := by
  refine ⟨by decide, rfl, rfl⟩

/-- C5, amended: `load` returns the empty collection when the 'tasks' entry is
absent and when it is the empty string; on any other stored text it returns
what `JSON.parse` returns, and throws the SyntaxError of `JSON.parse` when the
text cannot be parsed. -/
theorem load_spec (store : Storage) :
    (getItem store (utf16 "tasks") = none → load store = Except.ok (JVal.arr [])) ∧
    (getItem store (utf16 "tasks") = some [] → load store = Except.ok (JVal.arr [])) ∧
    (∀ text, getItem store (utf16 "tasks") = some text → text ≠ [] →
      load store = JSON.parse text ∧
      (∀ e, JSON.parse text = Except.error e → load store = Except.error e)) := by
  refine ⟨?_, ?_, ?_⟩
  · intro h
    simp [load, h]
  · intro h
    simp [load, h, truthyStr]
  · intro text h hne
    have hl : load store = JSON.parse text := by
      simp [load, h, (truthyStr_iff _).2 hne]
    exact ⟨hl, fun e he => by rw [hl, he]⟩

/-- C5, amended, at the empty storage, at an empty 'tasks' entry and at the
entry "[1" that cannot be parsed. -/
theorem load_spec_witness :
    load [] = Except.ok (JVal.arr []) ∧
    load [(utf16 "tasks", [])] = Except.ok (JVal.arr []) ∧
    load [(utf16 "tasks", utf16 "[1")] = Except.error JSError.syntaxError :=
  ⟨(load_spec []).1 (by decide),
    (load_spec [(utf16 "tasks", [])]).2.1 (by decide),
    ((load_spec [(utf16 "tasks", utf16 "[1")]).2.2 (utf16 "[1") (by decide) (by decide)).2
      JSError.syntaxError rfl⟩

/-- C6: for every collection of tasks, loading what `persist` wrote for it
returns the array of the objects its tasks are, and for the empty collection
the empty array. -/
theorem load_persist_roundtrip (tasks : List Task) (store : Storage) :
    load (persist tasks store) = Except.ok (tasksValue tasks) ∧
    load (persist [] store) = Except.ok (JVal.arr []) :=
  ⟨load_persist tasks store, load_persist [] store⟩

/-! ## Task views: filter and statistics -/

/-- C2: the 'completed' and the 'pending' filter partition every collection:
the two results together are the collection again (each task occurrence once),
no task is in both, every task of the collection is in one of them, and each
result is a sub-sequence of the collection. -/
theorem filter_completed_pending_partition (tasks : List Task) :
    (filteredTasks tasks (utf16 "completed") ++ filteredTasks tasks (utf16 "pending")).Perm tasks ∧
    (∀ t, t ∈ filteredTasks tasks (utf16 "completed") →
      t ∉ filteredTasks tasks (utf16 "pending")) ∧
    (∀ t, t ∈ tasks →
      t ∈ filteredTasks tasks (utf16 "completed") ∨ t ∈ filteredTasks tasks (utf16 "pending")) ∧
    (filteredTasks tasks (utf16 "completed")).Sublist tasks ∧
    (filteredTasks tasks (utf16 "pending")).Sublist tasks := by
  have hc : filterPred (utf16 "completed") = fun t => t.completed :=
    funext filterPred_completed
  have hp : filterPred (utf16 "pending") = fun t => !t.completed :=
    funext filterPred_pending
  unfold filteredTasks
  rw [hc, hp]
  refine ⟨List.filter_append_perm _ tasks, ?_, ?_, List.filter_sublist _, List.filter_sublist _⟩
  · intro t ht hn
    simp only [List.mem_filter] at ht hn
    simp [ht.2] at hn
  · intro t ht
    simp only [List.mem_filter]
    cases h : t.completed <;> simp [ht]

/-- C2 at the collection of a pending task followed by a completed one. -/
theorem filter_completed_pending_partition_witness :
    filteredTasks [pendingTask, completedTask] (utf16 "completed") = [completedTask] ∧
    filteredTasks [pendingTask, completedTask] (utf16 "pending") = [pendingTask] ∧
    ([completedTask] ++ [pendingTask]).Perm [pendingTask, completedTask] := by
  have h := (filter_completed_pending_partition [pendingTask, completedTask]).1
  have hc : filteredTasks [pendingTask, completedTask] (utf16 "completed") = [completedTask] := by
    decide
  have hp : filteredTasks [pendingTask, completedTask] (utf16 "pending") = [pendingTask] := by
    decide
  rw [hc, hp] at h
  exact ⟨hc, hp, h⟩

/-- C3: the statistics of every collection satisfy
total = completed + pending. -/
theorem stats_total_eq (tasks : List Task) :
    (computeStats tasks).total = (computeStats tasks).completed + (computeStats tasks).pending := by
  have h := (List.filter_append_perm (fun t : Task => t.completed) tasks).length_eq
  simp only [List.length_append] at h
  simp only [computeStats]
  exact h.symm

/-! ## Session gate -/

/-- C7, as stated, fails: with the empty string stored under 'username' an
identity is present, yet the guard's test is false. -/
theorem isAuthenticated_empty_identity :
    getItem [(utf16 "username", [])] (utf16 "username") = some [] ∧
    isAuthenticated [(utf16 "username", [])] = false := by
  decide

/-- C7, amended: the guard's test is true if and only if a non-empty string is
stored under 'username'. -/
theorem isAuthenticated_iff (store : Storage) :
    isAuthenticated store = true ↔
      ∃ v, getItem store (utf16 "username") = some v ∧ v ≠ [] := by
  unfold isAuthenticated
  cases h : getItem store (utf16 "username") with
  | none => simp [truthyItem]
  | some v => simp [truthyItem, truthyStr_iff]

/-- C8: login fails exactly when the name is empty after trimming; a failed
login leaves the storage as it was and navigates nowhere; a successful one
stores the name as entered under 'username' and navigates to '/dashboard'. -/
theorem handleLogin_spec (store : Storage) (name : JSString) :
    ((handleLogin store name).failed = true ↔ trim name = []) ∧
    (trim name = [] →
      (handleLogin store name).store = store ∧ (handleLogin store name).navigatedTo = none) ∧
    (trim name ≠ [] →
      (handleLogin store name).store = setItem store (utf16 "username") name ∧
      getItem (handleLogin store name).store (utf16 "username") = some name ∧
      (handleLogin store name).navigatedTo = some (utf16 "/dashboard")) := by
  by_cases h : trim name = []
  · simp [handleLogin, LoginOutcome.failed, h, truthyStr]
  · have ht : truthyStr (trim name) = true := (truthyStr_iff _).2 h
    simp [handleLogin, ht, h, LoginOutcome.failed, getItem_setItem_same]

/-- C8 at the names "  " (rejected) and " bob " (stored with its blanks). -/
theorem handleLogin_spec_witness :
    (((handleLogin [] (utf16 "  ")).failed = true ↔ trim (utf16 "  ") = []) ∧
    (trim (utf16 "  ") = [] →
      (handleLogin [] (utf16 "  ")).store = [] ∧ (handleLogin [] (utf16 "  ")).navigatedTo = none) ∧
    (trim (utf16 "  ") ≠ [] →
      (handleLogin [] (utf16 "  ")).store = setItem [] (utf16 "username") (utf16 "  ") ∧
      getItem (handleLogin [] (utf16 "  ")).store (utf16 "username") = some (utf16 "  ") ∧
      (handleLogin [] (utf16 "  ")).navigatedTo = some (utf16 "/dashboard"))) ∧
    trim (utf16 "  ") = [] ∧ trim (utf16 " bob ") ≠ [] ∧
    getItem (handleLogin [] (utf16 " bob ")).store (utf16 "username") = some (utf16 " bob ") :=
  ⟨handleLogin_spec [] (utf16 "  "), by decide, by decide,
    ((handleLogin_spec [] (utf16 " bob ")).2.2 (by decide)).2.1⟩

/-- C9: while no identity is stored the guard's test is false, and right after
a login that succeeds it is true. -/
theorem isAuthenticated_after_login (store : Storage) (name : JSString)
    (hnone : getItem store (utf16 "username") = none)
    (hok : (handleLogin store name).failed = false) :
    isAuthenticated store = false ∧
    isAuthenticated (handleLogin store name).store = true := by
  constructor
  · simp [isAuthenticated, hnone, truthyItem]
  · by_cases h : truthyStr (trim name) = true
    · have hne : name ≠ [] := ne_nil_of_trim_ne_nil name ((truthyStr_iff _).1 h)
      simp [handleLogin, h, isAuthenticated, getItem_setItem_same, truthyItem,
        (truthyStr_iff name).2 hne]
    · simp [handleLogin, h, LoginOutcome.failed] at hok

/-- C9 at the empty storage and the name "alice". -/
theorem isAuthenticated_after_login_witness :
    getItem [] (utf16 "username") = none ∧
    (handleLogin [] (utf16 "alice")).failed = false ∧
    isAuthenticated [] = false ∧
    isAuthenticated (handleLogin [] (utf16 "alice")).store = true :=
  ⟨by decide, by decide, isAuthenticated_after_login [] (utf16 "alice") (by decide) (by decide)⟩

/-- C10: on each of '/dashboard', '/TasksPage' and '/AboutPage' the route
renders its page inside the layout when the guard's test holds, and otherwise
renders the redirect to '/' (with replace), which is no protected content; so
protected content is rendered only when the test holds. -/
theorem guard_protects_routes (store : Storage) (path : JSString)
    (hpath : path ∈ [utf16 "/dashboard", utf16 "/TasksPage", utf16 "/AboutPage"]) :
    (isAuthenticated store = true →
      ∃ page, renderRoute store path = some (View.layout page)) ∧
    (isAuthenticated store = false →
      renderRoute store path = some (View.navigate (utf16 "/") true)) ∧
    (∀ v, renderRoute store path = some v → isProtectedContent v = true →
      isAuthenticated store = true) := by
  have h1 : (utf16 "/" == utf16 "/dashboard") = false := by decide
  have h2 : (utf16 "/" == utf16 "/TasksPage") = false := by decide
  have h3 : (utf16 "/" == utf16 "/AboutPage") = false := by decide
  have h4 : (utf16 "/dashboard" == utf16 "/TasksPage") = false := by decide
  have h5 : (utf16 "/dashboard" == utf16 "/AboutPage") = false := by decide
  have h6 : (utf16 "/TasksPage" == utf16 "/AboutPage") = false := by decide
  simp only [List.mem_cons, List.mem_singleton, List.not_mem_nil, or_false] at hpath
  cases hauth : isAuthenticated store <;>
    rcases hpath with h | h | h <;> subst h <;>
    simp [renderRoute, router, List.find?, AuthGuard, hauth, h1, h2, h3, h4, h5, h6,
      isProtectedContent]

/-- C10 at the empty storage and the route '/TasksPage'. -/
theorem guard_protects_routes_witness :
    utf16 "/TasksPage" ∈ [utf16 "/dashboard", utf16 "/TasksPage", utf16 "/AboutPage"] ∧
    isAuthenticated [] = false ∧
    renderRoute [] (utf16 "/TasksPage") = some (View.navigate (utf16 "/") true) :=
  ⟨by decide, by decide,
    (guard_protects_routes [] (utf16 "/TasksPage") (by decide)).2.1 (by decide)⟩

/-! ## Submitting the form in edit mode -/

/-- In edit mode `newTask` keeps the id, the completed flag and the createdAt
of the task being edited, provided its id is not 0 and its createdAt is not
the empty string. -/
theorem newTask_edit_preserves (now : Int) (nowISO : JSString) (s : State) (cur : Task)
    (hcur : s.currentTask = some cur) (hid : cur.id ≠ 0) (hcreated : cur.createdAt ≠ []) :
    (newTask now nowISO s).id = cur.id ∧
    (newTask now nowISO s).completed = cur.completed ∧
    (newTask now nowISO s).createdAt = cur.createdAt := by
  simp [newTask, hcur, orElseInt, orElseFalse, orElseStr, hid, (truthyStr_iff _).2 hcreated]

/-- C1 at a failing input: the collection holds one task, with id 0 (a
collection that `load` returns from what `persist` wrote); the task is opened
for editing and the prefilled form, which passes validation, is submitted at
time 1700000000000. The task that replaces it has the id 1700000000000,
not 0. -/
theorem handleSubmit_edit_changes_id_zero :
    load (persist [taskWithIdZero] []) = Except.ok (tasksValue [taskWithIdZero]) ∧
    taskWithIdZero ∈ (handleEdit (initialState [taskWithIdZero]) taskWithIdZero).tasks ∧
    (validateForm (handleEdit (initialState [taskWithIdZero]) taskWithIdZero)).2 = true ∧
    (handleSubmit 1700000000000 (utf16 "2023-11-14T22:13:20.000Z")
      (handleEdit (initialState [taskWithIdZero]) taskWithIdZero)).tasks.map Task.id
      = [1700000000000] :=
  ⟨load_persist [taskWithIdZero] [], by decide, by decide, by decide⟩

/-! ## Submitting the form: validation, rejection, create -/

theorem jsGt_false_iff_jsGe (a b : JSString) : jsGt a b = false ↔ jsGe b a = true := by
  simp [jsGt, jsGe]

/-- A form that fails validation changes the `errors` state and nothing
else. -/
theorem handleSubmit_invalid (now : Int) (nowISO : JSString) (s : State)
    (h : (validateForm s).2 = false) :
    handleSubmit now nowISO s = { s with errors := formErrors s.formData } := by
  simp only [validateForm] at h
  simp [handleSubmit, validateForm, h]

/-- In edit mode a form that passes validation puts `newTask` in the place of
every task that has the id of the task being edited. -/
theorem handleSubmit_edit (now : Int) (nowISO : JSString) (s : State) (cur : Task)
    (hcur : s.currentTask = some cur) (hvalid : (validateForm s).2 = true) :
    (handleSubmit now nowISO s).tasks =
      s.tasks.map (fun task =>
        if task.id = cur.id then newTask now nowISO { s with errors := formErrors s.formData }
        else task) ∧
    (handleSubmit now nowISO s).errors = formErrors s.formData ∧
    (handleSubmit now nowISO s).showModal = false := by
  simp only [validateForm] at hvalid
  simp [handleSubmit, validateForm, hvalid, hcur]

/-- C11: `validateForm` accepts a form if and only if the title is non-empty
after trimming, the start date is non-empty, the end date is non-empty and
the end date is greater than or equal to the start date; the priority and the
description do not change the outcome. -/
theorem validateForm_accepts_iff (s : State) :
    ((validateForm s).2 = true ↔
      trim s.formData.title ≠ [] ∧ s.formData.startDate ≠ [] ∧ s.formData.endDate ≠ [] ∧
        jsGe s.formData.endDate s.formData.startDate = true) ∧
    (∀ priority description : JSString,
      (validateForm { s with formData :=
        { s.formData with priority := priority, description := description } }).2 =
        (validateForm s).2) := by
  constructor
  · simp only [validateForm, formErrors_isEmpty_iff, jsGt_false_iff_jsGe]
  · intro priority description
    simp [validateForm, formErrors]

/-- C11 at the form "Write spec", which is accepted, and at the same form with
the end date before the start date, which is not. -/
theorem validateForm_accepts_iff_witness :
    (validateForm { initialState [] with formData := writeSpecForm }).2 = true ∧
    (validateForm { initialState [] with formData := endBeforeStartForm }).2 = false ∧
    jsGe endBeforeStartForm.endDate endBeforeStartForm.startDate = false :=
  ⟨(validateForm_accepts_iff { initialState [] with formData := writeSpecForm }).1.2
      ⟨by decide, by decide, by decide, by decide⟩,
    by decide, by decide⟩

/-- C12: when both dates of the form are non-empty and the end date is less
than the start date, the submission is rejected: the `errors` state has the
message "End date must be after start date" on `endDate` and the collection is
the one before. -/
theorem handleSubmit_end_before_start (now : Int) (nowISO : JSString) (s : State)
    (hstart : s.formData.startDate ≠ []) (hend : s.formData.endDate ≠ [])
    (hlt : jsLt s.formData.endDate s.formData.startDate = true) :
    (validateForm s).2 = false ∧
    (handleSubmit now nowISO s).errors.endDate =
      some (utf16 "End date must be after start date") ∧
    (handleSubmit now nowISO s).tasks = s.tasks := by
  have hgt : jsGt s.formData.startDate s.formData.endDate = true := hlt
  have hfalse : (validateForm s).2 = false := by
    have h := formErrors_isEmpty_iff s.formData
    simp only [validateForm]
    cases hv : (formErrors s.formData).isEmpty
    · rfl
    · have h4 := (h.1 hv).2.2.2
      rw [hgt] at h4
      cases h4
  refine ⟨hfalse, ?_, ?_⟩
  · rw [handleSubmit_invalid now nowISO s hfalse]
    simp [formErrors, (truthyStr_iff _).2 hstart, (truthyStr_iff _).2 hend, hgt]
  · rw [handleSubmit_invalid now nowISO s hfalse]

/-- C12 at the collection of one task and the create form whose end date
2024-01-02 is before its start date 2024-01-03. -/
theorem handleSubmit_end_before_start_witness :
    endBeforeStartForm.startDate ≠ [] ∧ endBeforeStartForm.endDate ≠ [] ∧
    jsLt endBeforeStartForm.endDate endBeforeStartForm.startDate = true ∧
    ({ initialState [pendingTask] with formData := endBeforeStartForm } : State).currentTask
      = none ∧
    (handleSubmit 1700000000000 (utf16 "2023-11-14T22:13:20.000Z")
      { initialState [pendingTask] with formData := endBeforeStartForm }).errors.endDate =
      some (utf16 "End date must be after start date") ∧
    (handleSubmit 1700000000000 (utf16 "2023-11-14T22:13:20.000Z")
      { initialState [pendingTask] with formData := endBeforeStartForm }).tasks = [pendingTask] :=
  ⟨by decide, by decide, by decide, by decide,
    (handleSubmit_end_before_start 1700000000000 (utf16 "2023-11-14T22:13:20.000Z")
      { initialState [pendingTask] with formData := endBeforeStartForm }
      (by decide) (by decide) (by decide)).2⟩

/-- C13: a form that fails validation for any reason (title empty after
trimming, start date empty, end date empty, end date less than start date, or
several of them) is rejected whatever the mode: validation returns false, the
submission changes the `errors` state only, and the collection is the one
before. -/
theorem handleSubmit_rejects_invalid (now : Int) (nowISO : JSString) (s : State)
    (h : trim s.formData.title = [] ∨ s.formData.startDate = [] ∨ s.formData.endDate = [] ∨
      jsLt s.formData.endDate s.formData.startDate = true) :
    (validateForm s).2 = false ∧
    handleSubmit now nowISO s = { s with errors := formErrors s.formData } ∧
    (handleSubmit now nowISO s).tasks = s.tasks := by
  have hfalse : (validateForm s).2 = false := by
    simp only [validateForm]
    cases hv : (formErrors s.formData).isEmpty
    · rfl
    · exfalso
      obtain ⟨h1, h2, h3, h4⟩ := (formErrors_isEmpty_iff s.formData).1 hv
      rcases h with h | h | h | h
      · exact h1 h
      · exact h2 h
      · exact h3 h
      · simp only [jsGt] at h4
        rw [h] at h4
        cases h4
  refine ⟨hfalse, handleSubmit_invalid now nowISO s hfalse, ?_⟩
  rw [handleSubmit_invalid now nowISO s hfalse]

/-- C13 at an edit of `pendingTask` whose title was replaced by blanks. -/
theorem handleSubmit_rejects_invalid_witness :
    trim (utf16 "   ") = [] ∧
    (handleSubmit 1700000000005 (utf16 "2023-11-14T22:13:20.005Z")
      { handleEdit (initialState [pendingTask]) pendingTask with
        formData := { writeSpecForm with title := utf16 "   " } }).tasks = [pendingTask] :=
  ⟨by decide,
    (handleSubmit_rejects_invalid 1700000000005 (utf16 "2023-11-14T22:13:20.005Z")
      { handleEdit (initialState [pendingTask]) pendingTask with
        formData := { writeSpecForm with title := utf16 "   " } }
      (Or.inl (by decide))).2.2⟩

/-- C14: in create mode a form that passes validation yields the previous
collection followed by one task, whose id is `Date.now()`, whose createdAt is
`new Date().toISOString()`, whose completed flag is false and whose title,
start date, end date, priority and description are the ones of the form. -/
theorem handleSubmit_create_appends (now : Int) (nowISO : JSString) (s : State)
    (hmode : s.currentTask = none) (hvalid : (validateForm s).2 = true) :
    (handleSubmit now nowISO s).tasks =
      s.tasks ++
        [{ id := now,
           title := s.formData.title,
           startDate := s.formData.startDate,
           endDate := s.formData.endDate,
           priority := s.formData.priority,
           description := s.formData.description,
           completed := false,
           createdAt := nowISO }] := by
  rw [handleSubmit_create now nowISO s hmode hvalid]
  simp [newTask, hmode, orElseInt, orElseFalse, orElseStr]

/-- C14 at the collection of one task and the form "Write spec". -/
theorem handleSubmit_create_appends_witness :
    ({ initialState [completedTask] with formData := writeSpecForm } : State).currentTask
      = none ∧
    (validateForm { initialState [completedTask] with formData := writeSpecForm }).2 = true ∧
    (handleSubmit 1700000000000 (utf16 "2023-11-14T22:13:20.000Z")
      { initialState [completedTask] with formData := writeSpecForm }).tasks =
      [completedTask, pendingTask] :=
  ⟨by decide, by decide,
    handleSubmit_create_appends 1700000000000 (utf16 "2023-11-14T22:13:20.000Z")
      { initialState [completedTask] with formData := writeSpecForm } (by decide) (by decide)⟩

/-! ## Submitting the form: update -/

/-- C15: in edit mode a form that passes validation replaces in place: the
collection keeps its length, a task whose id differs from the id of the task
being edited stays as it is at its index, and at the index of a task with that
id stands a task with the title, start date, end date, priority and
description of the form. -/
theorem handleSubmit_update_in_place (now : Int) (nowISO : JSString) (s : State) (cur : Task)
    (hcur : s.currentTask = some cur) (hvalid : (validateForm s).2 = true) :
    (handleSubmit now nowISO s).tasks.length = s.tasks.length ∧
    ∀ (i : Nat) (t : Task), s.tasks[i]? = some t →
      (t.id ≠ cur.id → (handleSubmit now nowISO s).tasks[i]? = some t) ∧
      (t.id = cur.id → ∃ t1 : Task, (handleSubmit now nowISO s).tasks[i]? = some t1 ∧
        t1.title = s.formData.title ∧ t1.startDate = s.formData.startDate ∧
        t1.endDate = s.formData.endDate ∧ t1.priority = s.formData.priority ∧
        t1.description = s.formData.description) := by
  rw [(handleSubmit_edit now nowISO s cur hcur hvalid).1]
  refine ⟨by simp, ?_⟩
  intro i t hi
  constructor
  · intro hne
    simp [List.getElem?_map, hi, hne]
  · intro heq
    refine ⟨newTask now nowISO { s with errors := formErrors s.formData }, ?_, ?_⟩
    · simp [List.getElem?_map, hi, heq]
    · simp [newTask]

/-- C15 at the collection of two tasks, the second one edited with the form
"Write spec". -/
theorem handleSubmit_update_in_place_witness :
    (handleSubmit 1700000000005 (utf16 "2023-11-14T22:13:20.005Z")
      { handleEdit (initialState [pendingTask, completedTask]) completedTask with
        formData := writeSpecForm }).tasks.length = 2 ∧
    (handleSubmit 1700000000005 (utf16 "2023-11-14T22:13:20.005Z")
      { handleEdit (initialState [pendingTask, completedTask]) completedTask with
        formData := writeSpecForm }).tasks[0]? = some pendingTask :=
  ⟨(handleSubmit_update_in_place 1700000000005 (utf16 "2023-11-14T22:13:20.005Z")
      { handleEdit (initialState [pendingTask, completedTask]) completedTask with
        formData := writeSpecForm } completedTask (by decide) (by decide)).1,
    ((handleSubmit_update_in_place 1700000000005 (utf16 "2023-11-14T22:13:20.005Z")
      { handleEdit (initialState [pendingTask, completedTask]) completedTask with
        formData := writeSpecForm } completedTask (by decide) (by decide)).2
      0 pendingTask (by decide)).1 (by decide)⟩

/-- C16, as stated, fails: the modal is open on an edit whose task is not in
the collection and the form passes validation; the submission leaves the
collection as it was, records no error and closes the modal, as a successful
update does: nothing signals that the id was not found. -/
theorem handleSubmit_missing_id_silent :
    (∀ t ∈ staleEditState.tasks, t.id ≠ completedTask.id) ∧
    staleEditState.currentTask = some completedTask ∧
    (validateForm staleEditState).2 = true ∧
    handleSubmit 1700000000005 (utf16 "2023-11-14T22:13:20.005Z") staleEditState =
      { staleEditState with showModal := false } ∧
    (handleSubmit 1700000000005 (utf16 "2023-11-14T22:13:20.005Z") staleEditState).errors =
      { title := none, startDate := none, endDate := none } := by
  decide

/-- C16, amended: in edit mode, when no task of the collection has the id of
the task being edited and the form passes validation, the submission is a
silent no-op: the collection is the one before, the `errors` state is empty
and the modal is closed; the state after differs from the state before in
`errors` and `showModal` at most. -/
theorem handleSubmit_missing_id_noop (now : Int) (nowISO : JSString) (s : State) (cur : Task)
    (hcur : s.currentTask = some cur) (hvalid : (validateForm s).2 = true)
    (hmissing : ∀ t ∈ s.tasks, t.id ≠ cur.id) :
    (handleSubmit now nowISO s).tasks = s.tasks ∧
    (handleSubmit now nowISO s).errors.isEmpty = true ∧
    (handleSubmit now nowISO s).showModal = false ∧
    handleSubmit now nowISO s =
      { s with errors := formErrors s.formData, showModal := false } := by
  obtain ⟨htasks, herrors, hmodal⟩ := handleSubmit_edit now nowISO s cur hcur hvalid
  have hsame : (handleSubmit now nowISO s).tasks = s.tasks := by
    rw [htasks]
    conv_rhs => rw [← List.map_id s.tasks]
    apply List.map_congr_left
    intro t ht
    simp [hmissing t ht]
  have hv : (formErrors s.formData).isEmpty = true := hvalid
  refine ⟨hsame, by rw [herrors]; exact hv, hmodal, ?_⟩
  have hv2 := hv
  simp only [validateForm] at hvalid
  simp only [handleSubmit, validateForm, hvalid, hcur] at hsame ⊢
  simp at hsame ⊢
  exact hsame

/-- C16, amended, at the state `staleEditState`. -/
theorem handleSubmit_missing_id_noop_witness :
    staleEditState.currentTask = some completedTask ∧
    (validateForm staleEditState).2 = true ∧
    (∀ t ∈ staleEditState.tasks, t.id ≠ completedTask.id) ∧
    (handleSubmit 1700000000005 (utf16 "2023-11-14T22:13:20.005Z") staleEditState).tasks =
      [pendingTask] :=
  ⟨by decide, by decide, by decide,
    (handleSubmit_missing_id_noop 1700000000005 (utf16 "2023-11-14T22:13:20.005Z")
      staleEditState completedTask (by decide) (by decide) (by decide)).1⟩

/-! ## Status change and delete -/

/-- C17: `handleStatusChange` is idempotent: applied twice with the same id
and status it gives the state that one application gives. -/
theorem handleStatusChange_idempotent (s : State) (taskId : Int) (status : JSString) :
    handleStatusChange (handleStatusChange s taskId status) taskId status =
      handleStatusChange s taskId status := by
  simp only [handleStatusChange, List.map_map]
  congr 1
  apply List.map_congr_left
  intro t _
  by_cases h : t.id = taskId <;> simp [h]

/-- C18: `handleStatusChange` keeps the length of the collection, leaves every
task with another id as it is at its index, and puts at the index of a task
with the id that task with `completed` set and every other field as before;
`completed` is true for the status 'completed' and false for 'pending'. -/
theorem handleStatusChange_spec (s : State) (taskId : Int) (status : JSString) :
    (handleStatusChange s taskId status).tasks.length = s.tasks.length ∧
    (∀ (i : Nat) (t : Task), s.tasks[i]? = some t →
      (t.id ≠ taskId → (handleStatusChange s taskId status).tasks[i]? = some t) ∧
      (t.id = taskId →
        (status = utf16 "completed" →
          (handleStatusChange s taskId status).tasks[i]? = some { t with completed := true }) ∧
        (status = utf16 "pending" →
          (handleStatusChange s taskId status).tasks[i]? =
            some { t with completed := false }))) ∧
    handleStatusChange s taskId status =
      { s with tasks := (handleStatusChange s taskId status).tasks } := by
  refine ⟨by simp [handleStatusChange], ?_, rfl⟩
  intro i t hi
  refine ⟨?_, ?_⟩
  · intro hne
    simp [handleStatusChange, List.getElem?_map, hi, hne]
  · intro heq
    constructor
    · intro hs
      simp [handleStatusChange, List.getElem?_map, hi, heq, hs]
    · intro hs
      simp [handleStatusChange, List.getElem?_map, hi, heq, hs, completed_ne_pending]

/-- C18 at the collection of two tasks, the first one set to 'completed'. -/
theorem handleStatusChange_spec_witness :
    (handleStatusChange (initialState [pendingTask, completedTask]) 1700000000000
      (utf16 "completed")).tasks[0]? = some { pendingTask with completed := true } ∧
    (handleStatusChange (initialState [pendingTask, completedTask]) 1700000000000
      (utf16 "completed")).tasks[1]? = some completedTask :=
  ⟨(((handleStatusChange_spec (initialState [pendingTask, completedTask]) 1700000000000
      (utf16 "completed")).2.1 0 pendingTask (by decide)).2 (by decide)).1 rfl,
    ((handleStatusChange_spec (initialState [pendingTask, completedTask]) 1700000000000
      (utf16 "completed")).2.1 1 completedTask (by decide)).1 (by decide)⟩

/-- C19: after `handleDelete` no task of the collection has the id; every task
with another id is in the collection as often as before; and the collection is
a sub-sequence of the one before, so its tasks are unchanged and in their
original relative order. -/
theorem handleDelete_spec (s : State) (taskId : Int) :
    (∀ t ∈ (handleDelete s taskId).1.tasks, t.id ≠ taskId) ∧
    (∀ t : Task, t.id ≠ taskId →
      (handleDelete s taskId).1.tasks.count t = s.tasks.count t) ∧
    (handleDelete s taskId).1.tasks.Sublist s.tasks := by
  refine ⟨?_, ?_, ?_⟩
  · intro t ht
    simp only [handleDelete, List.mem_filter] at ht
    simpa using ht.2
  · intro t hne
    simp only [handleDelete]
    rw [List.count_filter]
    simpa using hne
  · exact List.filter_sublist _

/-- C19 at the collection of two tasks, the first one deleted. -/
theorem handleDelete_spec_witness :
    (handleDelete (initialState [pendingTask, completedTask]) 1700000000000).1.tasks =
      [completedTask] ∧
    (handleDelete (initialState [pendingTask, completedTask]) 1700000000000).1.tasks.count
      completedTask = 1 := by
  have h := (handleDelete_spec (initialState [pendingTask, completedTask]) 1700000000000).2.1
    completedTask (by decide)
  have ht : (handleDelete (initialState [pendingTask, completedTask]) 1700000000000).1.tasks =
      [completedTask] := by decide
  refine ⟨ht, ?_⟩
  rw [h]
  decide

/-! ## Sorting -/

theorem perm_insertSorted {α : Type} (comparator : α → α → Option Int) (a : α) (l : List α) :
    (insertSorted comparator a l).Perm (a :: l) := by
  induction l with
  | nil => simp [insertSorted]
  | cons b rest ih =>
    by_cases h : sortsAfter comparator a b = true
    · simp only [insertSorted, h, if_true]
      exact (List.Perm.cons b ih).trans (List.Perm.swap a b rest)
    · simp only [insertSorted, h]
      exact List.Perm.refl _

theorem perm_arraySort {α : Type} (comparator : α → α → Option Int) (l : List α) :
    (arraySort comparator l).Perm l := by
  induction l with
  | nil => simp [arraySort]
  | cons a rest ih =>
    simp only [arraySort]
    exact (perm_insertSorted comparator a _).trans (List.Perm.cons a ih)

/-- A task goes after another exactly when its `createdAt` is before the
other's. -/
theorem sortsAfter_compareCreatedAt (parseDate : JSString → Option Int) (a b : Task) :
    sortsAfter (compareCreatedAt parseDate) a b =
      isBefore (parseDate a.createdAt) (parseDate b.createdAt) := by
  unfold sortsAfter compareCreatedAt isBefore
  cases ha : parseDate a.createdAt <;> cases hb : parseDate b.createdAt <;> simp

theorem isBefore_asymm (x y : Option Int) (h : isBefore x y = true) : isBefore y x = false := by
  cases x <;> cases y <;> simp [isBefore] at h ⊢
  omega

/-- Sorting leaves a sequence as it is when none of its elements goes after
its right neighbour. -/
theorem arraySort_eq_self {α : Type} (comparator : α → α → Option Int) (l : List α)
    (hl : List.Chain' (fun x y => sortsAfter comparator x y = false) l) :
    arraySort comparator l = l := by
  induction l with
  | nil => rfl
  | cons a rest ih =>
    have hrest := ih (List.chain'_cons'.1 hl).2
    simp only [arraySort, hrest]
    cases rest with
    | nil => rfl
    | cons b rest1 =>
      have hab : sortsAfter comparator a b = false := (List.chain'_cons.1 hl).1
      simp [insertSorted, hab]

theorem sortsAfter_compareCreatedAt_asymm (parseDate : JSString → Option Int) (a b : Task)
    (h : sortsAfter (compareCreatedAt parseDate) a b = true) :
    sortsAfter (compareCreatedAt parseDate) b a = false := by
  rw [sortsAfter_compareCreatedAt] at h ⊢
  exact isBefore_asymm _ _ h

/-! ## Statistics -/

/-- C22: the statistics of a collection are: total, the number of its tasks;
completed, the number of its tasks whose completed flag is set; pending,
total minus completed. -/
theorem computeStats_spec (tasks : List Task) :
    (computeStats tasks).total = tasks.length ∧
    (computeStats tasks).completed = tasks.countP (fun task => task.completed) ∧
    (computeStats tasks).pending = (computeStats tasks).total - (computeStats tasks).completed := by
  refine ⟨rfl, ?_, ?_⟩
  · simp [computeStats, List.countP_eq_length_filter]
  · have h := (List.filter_append_perm (fun t : Task => t.completed) tasks).length_eq
    simp only [List.length_append] at h
    simp only [computeStats]
    omega

/-- C23: from the empty collection, a create with a form that passes
validation gives a collection of one task with the statistics 1, 0, 1; setting
that task to 'completed' gives 1, 1, 0; deleting it gives 0, 0, 0 and sets
`showToast`. -/
theorem create_complete_delete_stats (now : Int) (nowISO : JSString) (form : TaskForm)
    (hvalid : (validateForm { initialState [] with formData := form }).2 = true) :
    ∃ t : Task,
      (handleSubmit now nowISO { initialState [] with formData := form }).tasks = [t] ∧
      computeStats (handleSubmit now nowISO { initialState [] with formData := form }).tasks =
        { total := 1, completed := 0, pending := 1 } ∧
      computeStats (handleStatusChange
        (handleSubmit now nowISO { initialState [] with formData := form })
        t.id (utf16 "completed")).tasks = { total := 1, completed := 1, pending := 0 } ∧
      computeStats (handleDelete (handleStatusChange
        (handleSubmit now nowISO { initialState [] with formData := form })
        t.id (utf16 "completed")) t.id).1.tasks = { total := 0, completed := 0, pending := 0 } ∧
      (handleDelete (handleStatusChange
        (handleSubmit now nowISO { initialState [] with formData := form })
        t.id (utf16 "completed")) t.id).1.showToast = true := by
  have hc := handleSubmit_create now nowISO { initialState [] with formData := form } rfl hvalid
  refine ⟨_, hc, ?_, ?_, ?_, ?_⟩
  · rw [hc]
    simp [computeStats, initialState, newTask, orElseFalse]
  · simp only [handleStatusChange, hc]
    simp [computeStats, initialState]
  · simp only [handleDelete, handleStatusChange, hc]
    simp [computeStats, initialState]
  · simp [handleDelete]

/-- C23 at the form "Write spec", created at the instant 1700000000000. -/
theorem create_complete_delete_stats_witness :
    (validateForm { initialState [] with formData := writeSpecForm }).2 = true ∧
    ∃ t : Task,
      (handleSubmit 1700000000000 (utf16 "2023-11-14T22:13:20.000Z")
        { initialState [] with formData := writeSpecForm }).tasks = [t] ∧
      computeStats (handleSubmit 1700000000000 (utf16 "2023-11-14T22:13:20.000Z")
        { initialState [] with formData := writeSpecForm }).tasks =
        { total := 1, completed := 0, pending := 1 } ∧
      computeStats (handleStatusChange
        (handleSubmit 1700000000000 (utf16 "2023-11-14T22:13:20.000Z")
          { initialState [] with formData := writeSpecForm })
        t.id (utf16 "completed")).tasks = { total := 1, completed := 1, pending := 0 } ∧
      computeStats (handleDelete (handleStatusChange
        (handleSubmit 1700000000000 (utf16 "2023-11-14T22:13:20.000Z")
          { initialState [] with formData := writeSpecForm })
        t.id (utf16 "completed")) t.id).1.tasks = { total := 0, completed := 0, pending := 0 } ∧
      (handleDelete (handleStatusChange
        (handleSubmit 1700000000000 (utf16 "2023-11-14T22:13:20.000Z")
          { initialState [] with formData := writeSpecForm })
        t.id (utf16 "completed")) t.id).1.showToast = true :=
  ⟨by decide,
    create_complete_delete_stats 1700000000000 (utf16 "2023-11-14T22:13:20.000Z") writeSpecForm
      (by decide)⟩

/-! ## Invariants of the collection -/

/-- The task `newTask` of a form that passes validation has its end date greater
than or equal to its start date. -/
theorem newTask_dates_ordered (now : Int) (nowISO : JSString) (s : State)
    (hvalid : (validateForm s).2 = true) :
    jsGe (newTask now nowISO { s with errors := formErrors s.formData }).endDate
      (newTask now nowISO { s with errors := formErrors s.formData }).startDate = true := by
  have h := (formErrors_isEmpty_iff s.formData).1 hvalid
  simp only [jsGt] at h
  simp [newTask, jsGe, h.2.2.2]

/-- C24, as stated, fails: the collection holds one task, created at the
instant 1700000000000, and a create with a valid form runs while `Date.now()`
is that same instant; afterwards two tasks have the id 1700000000000. -/
theorem create_same_instant_duplicates_id :
    (({ initialState [pendingTask] with formData := writeSpecForm } : State).tasks.map
      Task.id).Nodup ∧
    ({ initialState [pendingTask] with formData := writeSpecForm } : State).currentTask = none ∧
    (validateForm { initialState [pendingTask] with formData := writeSpecForm }).2 = true ∧
    (handleSubmit 1700000000000 (utf16 "2023-11-14T22:13:20.000Z")
      { initialState [pendingTask] with formData := writeSpecForm }).tasks.map Task.id =
      [1700000000000, 1700000000000] ∧
    ¬ ((handleSubmit 1700000000000 (utf16 "2023-11-14T22:13:20.000Z")
      { initialState [pendingTask] with formData := writeSpecForm }).tasks.map Task.id).Nodup := by
  decide

/-- C24, amended: when no two tasks of the collection share an id, none do
after a create whose `Date.now()` is not the id of a task of the collection,
after an update of a task whose id is not 0, after a status change, or after a
delete. -/
theorem ids_nodup_preserved (now : Int) (nowISO : JSString) (s : State)
    (hnodup : (s.tasks.map Task.id).Nodup) :
    (s.currentTask = none → now ∉ s.tasks.map Task.id →
      ((handleSubmit now nowISO s).tasks.map Task.id).Nodup) ∧
    (∀ cur : Task, s.currentTask = some cur → cur.id ≠ 0 →
      ((handleSubmit now nowISO s).tasks.map Task.id).Nodup) ∧
    (∀ (taskId : Int) (status : JSString),
      ((handleStatusChange s taskId status).tasks.map Task.id).Nodup) ∧
    (∀ taskId : Int, ((handleDelete s taskId).1.tasks.map Task.id).Nodup) := by
  refine ⟨?_, ?_, ?_, ?_⟩
  · intro hmode hfresh
    cases hv : (validateForm s).2
    · rw [handleSubmit_invalid now nowISO s hv]
      exact hnodup
    · rw [handleSubmit_create now nowISO s hmode hv, List.map_append]
      have hid : (newTask now nowISO { s with errors := formErrors s.formData }).id = now := by
        simp [newTask, hmode, orElseInt]
      refine List.Nodup.append hnodup (by simp) ?_
      intro x hx hy
      simp only [List.map_cons, List.map_nil, List.mem_singleton, hid] at hy
      exact hfresh (hy ▸ hx)
  · intro cur hcur hid
    cases hv : (validateForm s).2
    · rw [handleSubmit_invalid now nowISO s hv]
      exact hnodup
    · rw [(handleSubmit_edit now nowISO s cur hcur hv).1, List.map_map]
      have hnew : (newTask now nowISO { s with errors := formErrors s.formData }).id = cur.id := by
        simp [newTask, hcur, orElseInt, hid]
      have hsame : s.tasks.map (Task.id ∘ fun task =>
          if task.id = cur.id then newTask now nowISO { s with errors := formErrors s.formData }
          else task) = s.tasks.map Task.id := by
        apply List.map_congr_left
        intro t _
        by_cases h : t.id = cur.id
        · simp [h, hnew]
        · simp [h]
      rw [hsame]
      exact hnodup
  · intro taskId status
    have hsame : (handleStatusChange s taskId status).tasks.map Task.id = s.tasks.map Task.id := by
      simp only [handleStatusChange, List.map_map]
      apply List.map_congr_left
      intro t _
      by_cases h : t.id = taskId <;> simp [h]
    rw [hsame]
    exact hnodup
  · intro taskId
    exact List.Nodup.sublist (List.Sublist.map _ (List.filter_sublist _)) hnodup

/-- C24, amended, at the collection of one task: a create one millisecond
after the task was created, and a delete. -/
theorem ids_nodup_preserved_witness :
    (({ initialState [pendingTask] with formData := writeSpecForm } : State).tasks.map
      Task.id).Nodup ∧
    ((handleSubmit 1700000000001 (utf16 "2023-11-14T22:13:20.001Z")
      { initialState [pendingTask] with formData := writeSpecForm }).tasks.map Task.id).Nodup ∧
    ((handleDelete { initialState [pendingTask] with formData := writeSpecForm }
      1700000000000).1.tasks.map Task.id).Nodup :=
  ⟨by decide,
    (ids_nodup_preserved 1700000000001 (utf16 "2023-11-14T22:13:20.001Z")
      { initialState [pendingTask] with formData := writeSpecForm } (by decide)).1
      (by decide) (by decide),
    (ids_nodup_preserved 1700000000001 (utf16 "2023-11-14T22:13:20.001Z")
      { initialState [pendingTask] with formData := writeSpecForm } (by decide)).2.2.2
      1700000000000⟩

/-- C25: when every task of the collection has its end date greater than or
equal to its start date, so has every task of the collection after a
submission of the form (create or update, accepted or rejected), after a
status change and after a delete. -/
theorem dates_ordered_preserved (now : Int) (nowISO : JSString) (s : State)
    (h : ∀ t ∈ s.tasks, jsGe t.endDate t.startDate = true) :
    (∀ t ∈ (handleSubmit now nowISO s).tasks, jsGe t.endDate t.startDate = true) ∧
    (∀ (taskId : Int) (status : JSString),
      ∀ t ∈ (handleStatusChange s taskId status).tasks, jsGe t.endDate t.startDate = true) ∧
    (∀ taskId : Int,
      ∀ t ∈ (handleDelete s taskId).1.tasks, jsGe t.endDate t.startDate = true) := by
  refine ⟨?_, ?_, ?_⟩
  · cases hv : (validateForm s).2
    · rw [handleSubmit_invalid now nowISO s hv]
      exact h
    · have hnew := newTask_dates_ordered now nowISO s hv
      cases hcur : s.currentTask with
      | none =>
        rw [handleSubmit_create now nowISO s hcur hv]
        intro t ht
        rcases List.mem_append.1 ht with ht | ht
        · exact h t ht
        · rw [List.mem_singleton.1 ht]
          exact hnew
      | some cur =>
        rw [(handleSubmit_edit now nowISO s cur hcur hv).1]
        intro t ht
        obtain ⟨t0, ht0, rfl⟩ := List.mem_map.1 ht
        by_cases hid : t0.id = cur.id
        · simpa [hid] using hnew
        · simpa [hid] using h t0 ht0
  · intro taskId status t ht
    simp only [handleStatusChange] at ht
    obtain ⟨t0, ht0, rfl⟩ := List.mem_map.1 ht
    by_cases hid : t0.id = taskId
    · simpa [hid] using h t0 ht0
    · simpa [hid] using h t0 ht0
  · intro taskId t ht
    simp only [handleDelete] at ht
    exact h t (List.mem_filter.1 ht).1

/-- C25 at the collection of two tasks and a create with the form
"Write spec". -/
theorem dates_ordered_preserved_witness :
    (∀ t ∈ ({ initialState [pendingTask, completedTask] with formData := writeSpecForm } :
      State).tasks, jsGe t.endDate t.startDate = true) ∧
    (∀ t ∈ (handleSubmit 1700000000005 (utf16 "2023-11-14T22:13:20.005Z")
      { initialState [pendingTask, completedTask] with formData := writeSpecForm }).tasks,
      jsGe t.endDate t.startDate = true) :=
  ⟨by decide,
    (dates_ordered_preserved 1700000000005 (utf16 "2023-11-14T22:13:20.005Z")
      { initialState [pendingTask, completedTask] with formData := writeSpecForm }
      (by decide)).1⟩

/-! ## Editing the form -/

theorem startDate_ne_other_names :
    utf16 "startDate" ≠ utf16 "title" ∧ utf16 "startDate" ≠ utf16 "endDate" ∧
    utf16 "startDate" ≠ utf16 "priority" ∧ utf16 "startDate" ≠ utf16 "description" := by
  decide

/-- C26: on a form whose end date is not empty, a change of the start date to a
value greater than the end date gives the form with the new start date and the
empty end date, the other fields as before; a change to a value not greater
than the end date gives the form with the new start date and the end date as
before. -/
theorem handleChange_startDate (s : State) (value : JSString)
    (hend : s.formData.endDate ≠ []) :
    (jsGt value s.formData.endDate = true →
      (handleChange s (utf16 "startDate") value).formData =
        { s.formData with startDate := value, endDate := [] }) ∧
    (jsGt value s.formData.endDate = false →
      (handleChange s (utf16 "startDate") value).formData =
        { s.formData with startDate := value }) := by
  obtain ⟨h1, -, -, -⟩ := startDate_ne_other_names
  have ht : truthyStr s.formData.endDate = true := (truthyStr_iff _).2 hend
  constructor
  · intro hgt
    simp [handleChange, setField, h1, ht, hgt]
  · intro hgt
    simp [handleChange, setField, h1, ht, hgt]

/-- C26 at the form "Write spec" (end date 2024-01-03): the start date
2024-01-05 clears the end date, the start date 2024-01-02 keeps it. -/
theorem handleChange_startDate_witness :
    (handleChange { initialState [] with formData := writeSpecForm } (utf16 "startDate")
      (utf16 "2024-01-05")).formData =
      { writeSpecForm with startDate := utf16 "2024-01-05", endDate := [] } ∧
    (handleChange { initialState [] with formData := writeSpecForm } (utf16 "startDate")
      (utf16 "2024-01-02")).formData =
      { writeSpecForm with startDate := utf16 "2024-01-02" } :=
  ⟨(handleChange_startDate { initialState [] with formData := writeSpecForm }
      (utf16 "2024-01-05") (by decide)).1 (by decide),
    (handleChange_startDate { initialState [] with formData := writeSpecForm }
      (utf16 "2024-01-02") (by decide)).2 (by decide)⟩

/-! ## The delete notice in time -/

/-- C27, as stated, fails: a delete at the instant 0, a second delete at the
instant 2000 while the notice is showing, and at the instant 3000 the timeout
of the first delete has hidden the notice, 1000 ms after the most recent
delete. -/
theorem second_delete_does_not_restart :
    (advanceTo (clickDelete samplePage 1700000000000) 2000).state.showToast = true ∧
    (clickDelete (advanceTo (clickDelete samplePage 1700000000000) 2000)
      1700000000001).clock = 2000 ∧
    (clickDelete (advanceTo (clickDelete samplePage 1700000000000) 2000)
      1700000000001).state.showToast = true ∧
    (advanceTo (clickDelete (advanceTo (clickDelete samplePage 1700000000000) 2000)
      1700000000001) 3000).clock = 3000 ∧
    (advanceTo (clickDelete (advanceTo (clickDelete samplePage 1700000000000) 2000)
      1700000000001) 3000).state.showToast = false := by
  decide

/-- C27, amended: every delete shows the notice and adds a timeout 3000 ms
later, clearing none; the notice then stays shown as long as no pending timeout
is due, so for 3000 ms when no timeout of an earlier delete is due before; and
it is hidden as soon as one pending timeout is due, be it the one of an
earlier delete. -/
theorem delete_notice_window (p : Page) (taskId : Int) :
    (clickDelete p taskId).state.showToast = true ∧
    (clickDelete p taskId).timeouts = p.timeouts ++ [p.clock + 3000] ∧
    (∀ t : Nat, (∀ due ∈ p.timeouts, t < due) → t < p.clock + 3000 →
      (advanceTo (clickDelete p taskId) t).state.showToast = true) ∧
    (∀ t : Nat, (∃ due ∈ (clickDelete p taskId).timeouts, due ≤ t) →
      (advanceTo (clickDelete p taskId) t).state.showToast = false) := by
  refine ⟨rfl, rfl, ?_, ?_⟩
  · intro t hearlier hlast
    have hnone : (clickDelete p taskId).timeouts.any (fun due => decide (due ≤ t)) = false := by
      simp only [clickDelete, handleDelete, List.any_eq_false, List.mem_append,
        List.mem_singleton, decide_eq_true_eq]
      intro due hdue
      rcases hdue with hdue | hdue
      · have := hearlier due hdue
        omega
      · omega
    simp only [advanceTo, hnone]
    rfl
  · intro t hdue
    have hany : (clickDelete p taskId).timeouts.any (fun due => decide (due ≤ t)) = true := by
      simp only [List.any_eq_true, decide_eq_true_eq]
      exact hdue
    simp only [advanceTo, hany]
    rfl

/-- C27, amended, at a single delete: the notice shows at the instant 2999 and
is hidden at the instant 3000. -/
theorem delete_notice_window_witness :
    (advanceTo (clickDelete samplePage 1700000000000) 2999).state.showToast = true ∧
    (advanceTo (clickDelete samplePage 1700000000000) 3000).state.showToast = false :=
  ⟨(delete_notice_window samplePage 1700000000000).2.2.1 2999 (by decide) (by decide),
    (delete_notice_window samplePage 1700000000000).2.2.2 3000 ⟨3000, by decide, by decide⟩⟩

/-! ## Edit round trip -/

/-- Opening a task of the collection for editing and submitting the prefilled
form gives the collection back, when the ids are pairwise distinct, the task
satisfies the validation rules, its id is not 0 and its `createdAt` is not
empty. -/
theorem edit_round_trip_of_truthy (now : Int) (nowISO : JSString) (s : State) (t : Task)
    (hnodup : (s.tasks.map Task.id).Nodup) (hmem : t ∈ s.tasks)
    (hvalid : (validateForm (handleEdit s t)).2 = true)
    (hid : t.id ≠ 0) (hcreated : t.createdAt ≠ []) :
    (handleSubmit now nowISO (handleEdit s t)).tasks = s.tasks := by
  have hedit := (handleSubmit_edit now nowISO (handleEdit s t) t rfl hvalid).1
  have hnew : newTask now nowISO
      { handleEdit s t with errors := formErrors (handleEdit s t).formData } = t := by
    simp [newTask, handleEdit, orElseInt, orElseFalse, orElseStr, hid,
      (truthyStr_iff _).2 hcreated]
  rw [hedit, hnew]
  have htasks : (handleEdit s t).tasks = s.tasks := rfl
  rw [htasks]
  conv_rhs => rw [← List.map_id s.tasks]
  apply List.map_congr_left
  intro u hu
  by_cases h : u.id = t.id
  · have hut : u = t := List.inj_on_of_nodup_map hnodup hu hmem h
    simp [hut]
  · simp [h]

/-- C29 at a failing input: the collection holds one task (so its ids are
pairwise distinct), the task satisfies the validation rules and its id is 0;
it is opened for editing and the prefilled form is submitted unchanged at the
instant 1700000000000. The collection after holds a task with the id
1700000000000 and is not the original collection. -/
theorem edit_round_trip_fails_id_zero :
    ((initialState [taskWithIdZero]).tasks.map Task.id).Nodup ∧
    taskWithIdZero ∈ (initialState [taskWithIdZero]).tasks ∧
    (validateForm (handleEdit (initialState [taskWithIdZero]) taskWithIdZero)).2 = true ∧
    (handleEdit (initialState [taskWithIdZero]) taskWithIdZero).formData =
      { title := taskWithIdZero.title, startDate := taskWithIdZero.startDate,
        endDate := taskWithIdZero.endDate, priority := taskWithIdZero.priority,
        description := taskWithIdZero.description } ∧
    (handleSubmit 1700000000000 (utf16 "2023-11-14T22:13:20.000Z")
      (handleEdit (initialState [taskWithIdZero]) taskWithIdZero)).tasks =
      [{ taskWithIdZero with id := 1700000000000 }] ∧
    (handleSubmit 1700000000000 (utf16 "2023-11-14T22:13:20.000Z")
      (handleEdit (initialState [taskWithIdZero]) taskWithIdZero)).tasks ≠
      (initialState [taskWithIdZero]).tasks := by
  decide

/-! ## Dates as strings and in time -/

theorem sum_range_succ_map (f : Nat → Nat) (n : Nat) :
    ((List.range (n + 1)).map f).sum = ((List.range n).map f).sum + f n := by
  simp [List.range_succ]

theorem sum_range_map_mono (f : Nat → Nat) (n k : Nat) (h : n ≤ k) :
    ((List.range n).map f).sum ≤ ((List.range k).map f).sum := by
  induction k with
  | zero =>
    have hn : n = 0 := by omega
    subst hn
    exact Nat.le_refl _
  | succ k ih =>
    by_cases hk : n = k + 1
    · subst hk
      exact Nat.le_refl _
    · have := ih (by omega)
      rw [sum_range_succ_map]
      omega

theorem daysBeforeYear_succ (y : Nat) :
    daysBeforeYear (y + 1) = daysBeforeYear y + yearLength y := by
  simp only [daysBeforeYear, sum_range_succ_map]

theorem daysBeforeYear_mono (y1 y2 : Nat) (h : y1 ≤ y2) :
    daysBeforeYear y1 ≤ daysBeforeYear y2 :=
  sum_range_map_mono yearLength y1 y2 h

theorem daysBeforeMonth_succ (leap : Bool) (m : Nat) (hm : 1 ≤ m) :
    daysBeforeMonth leap (m + 1) = daysBeforeMonth leap m + monthLength leap m := by
  obtain ⟨k, rfl⟩ : ∃ k, m = k + 1 := ⟨m - 1, by omega⟩
  simp only [daysBeforeMonth, Nat.add_sub_cancel]
  exact sum_range_succ_map (fun i => monthLength leap (i + 1)) k

theorem daysBeforeMonth_mono (leap : Bool) (m1 m2 : Nat) (h : m1 ≤ m2) :
    daysBeforeMonth leap m1 ≤ daysBeforeMonth leap m2 :=
  sum_range_map_mono (fun i => monthLength leap (i + 1)) (m1 - 1) (m2 - 1) (by omega)

theorem daysBeforeMonth_thirteen (y : Nat) :
    daysBeforeMonth (isLeapYear y) 13 = yearLength y := by
  unfold yearLength
  cases isLeapYear y <;> decide

/-- Within its year a calendar date is a day from 1 to the length of the
year. -/
theorem dayOfYear_le (a : Nat × Nat × Nat) (ha : isCalendarDate a) :
    daysBeforeMonth (isLeapYear a.1) a.2.1 + a.2.2 ≤ yearLength a.1 := by
  obtain ⟨h1, h2, -, h4⟩ := ha
  have hsucc := daysBeforeMonth_succ (isLeapYear a.1) a.2.1 h1
  have hmono := daysBeforeMonth_mono (isLeapYear a.1) (a.2.1 + 1) 13 (by omega)
  rw [daysBeforeMonth_thirteen] at hmono
  omega

/-- The day number grows with the order of (year, month, day). -/
theorem dayNumber_lt_of_lexBefore (a b : Nat × Nat × Nat) (ha : isCalendarDate a)
    (hb : isCalendarDate b) (h : lexBefore a b) : dayNumber a < dayNumber b := by
  obtain ⟨ya, ma, da⟩ := a
  obtain ⟨yb, mb, db⟩ := b
  have hday := dayOfYear_le _ ha
  obtain ⟨ha1, ha2, ha3, ha4⟩ := ha
  obtain ⟨hb1, hb2, hb3, hb4⟩ := hb
  simp only [lexBefore, dayNumber] at *
  rcases h with hy | ⟨hy, hm | ⟨hm, hd⟩⟩
  · have h1 := daysBeforeYear_succ ya
    have h2 := daysBeforeYear_mono (ya + 1) yb (by omega)
    omega
  · subst hy
    have h1 := daysBeforeMonth_succ (isLeapYear ya) ma ha1
    have h2 := daysBeforeMonth_mono (isLeapYear ya) (ma + 1) mb (by omega)
    omega
  · subst hy
    subst hm
    omega

theorem lexBefore_trichotomy (a b : Nat × Nat × Nat) :
    lexBefore a b ∨ a = b ∨ lexBefore b a := by
  obtain ⟨ya, ma, da⟩ := a
  obtain ⟨yb, mb, db⟩ := b
  simp only [lexBefore, Prod.mk.injEq]
  omega

/-- On calendar dates the order of the day numbers is the order of
(year, month, day). -/
theorem dayNumber_lt_iff_lexBefore (a b : Nat × Nat × Nat) (ha : isCalendarDate a)
    (hb : isCalendarDate b) : dayNumber a < dayNumber b ↔ lexBefore a b := by
  constructor
  · intro h
    rcases lexBefore_trichotomy a b with h1 | h1 | h1
    · exact h1
    · subst h1
      omega
    · have := dayNumber_lt_of_lexBefore b a hb ha h1
      omega
  · exact dayNumber_lt_of_lexBefore a b ha hb

theorem jsLt_cons_iff (x y : Nat) (xs ys : JSString) :
    jsLt (x :: xs) (y :: ys) = true ↔ x < y ∨ (x = y ∧ jsLt xs ys = true) := by
  simp only [jsLt]
  split_ifs with h1 h2
  · simp [h1]
  · constructor
    · intro h
      cases h
    · rintro (h | ⟨h, -⟩) <;> omega
  · have hxy : x = y := by omega
    simp [hxy]

/-- What a string that stands for a date looks like: eight digits `0x30 + u`
and two hyphens. -/
theorem parseYMD_eq_some (s : JSString) (a : Nat × Nat × Nat) (h : parseYMD s = some a) :
    ∃ u1 u2 u3 u4 u5 u6 u7 u8 : Nat,
      s = [0x30 + u1, 0x30 + u2, 0x30 + u3, 0x30 + u4, 0x2D, 0x30 + u5, 0x30 + u6, 0x2D,
        0x30 + u7, 0x30 + u8] ∧
      u1 ≤ 9 ∧ u2 ≤ 9 ∧ u3 ≤ 9 ∧ u4 ≤ 9 ∧ u5 ≤ 9 ∧ u6 ≤ 9 ∧ u7 ≤ 9 ∧ u8 ≤ 9 ∧
      a = (1000 * u1 + 100 * u2 + 10 * u3 + u4, 10 * u5 + u6, 10 * u7 + u8) ∧
      isCalendarDate a := by
  unfold parseYMD at h
  split at h
  · rename_i y1 y2 y3 y4 h1 m1 m2 h2 d1 d2
    simp only at h
    split_ifs at h with hc
    simp only [Bool.and_eq_true, isDigit, decide_eq_true_eq, beq_iff_eq] at hc
    obtain ⟨⟨⟨⟨⟨⟨⟨⟨⟨⟨⟨⟨⟨c1, c2⟩, c3⟩, c4⟩, c5⟩, c6⟩, c7⟩, c8⟩, c9⟩, c10⟩, c11⟩, c12⟩, c13⟩, c14⟩ := hc
    subst c5
    subst c8
    have ha : a = (1000 * (y1 - 0x30) + 100 * (y2 - 0x30) + 10 * (y3 - 0x30) + (y4 - 0x30),
        10 * (m1 - 0x30) + (m2 - 0x30), 10 * (d1 - 0x30) + (d2 - 0x30)) := by
      simpa using h.symm
    refine ⟨y1 - 0x30, y2 - 0x30, y3 - 0x30, y4 - 0x30, m1 - 0x30, m2 - 0x30, d1 - 0x30,
      d2 - 0x30, ?_, by omega, by omega, by omega, by omega, by omega, by omega, by omega,
      by omega, ha, ?_⟩
    · have e1 : 0x30 + (y1 - 0x30) = y1 := by omega
      have e2 : 0x30 + (y2 - 0x30) = y2 := by omega
      have e3 : 0x30 + (y3 - 0x30) = y3 := by omega
      have e4 : 0x30 + (y4 - 0x30) = y4 := by omega
      have e5 : 0x30 + (m1 - 0x30) = m1 := by omega
      have e6 : 0x30 + (m2 - 0x30) = m2 := by omega
      have e7 : 0x30 + (d1 - 0x30) = d1 := by omega
      have e8 : 0x30 + (d2 - 0x30) = d2 := by omega
      rw [e1, e2, e3, e4, e5, e6, e7, e8]
    · rw [ha]
      exact ⟨c11, c12, c13, c14⟩
  · cases h

/-- On two strings that stand for dates, the order of the strings is the order
of (year, month, day). -/
theorem jsLt_iff_lexBefore (s1 s2 : JSString) (a b : Nat × Nat × Nat)
    (h1 : parseYMD s1 = some a) (h2 : parseYMD s2 = some b) :
    jsLt s1 s2 = true ↔ lexBefore a b := by
  obtain ⟨p1, p2, p3, p4, p5, p6, p7, p8, rfl, hp1, hp2, hp3, hp4, hp5, hp6, hp7, hp8, rfl, -⟩ :=
    parseYMD_eq_some s1 a h1
  obtain ⟨q1, q2, q3, q4, q5, q6, q7, q8, rfl, hq1, hq2, hq3, hq4, hq5, hq6, hq7, hq8, rfl, -⟩ :=
    parseYMD_eq_some s2 b h2
  have hnil : jsLt [] [] = false := rfl
  simp only [jsLt_cons_iff, hnil, lexBefore, Bool.false_eq_true, and_false, or_false,
    lt_self_iff_false, true_and, false_or]
  omega

theorem ne_nil_of_parseYMD (s : JSString) (a : Nat × Nat × Nat) (h : parseYMD s = some a) :
    s ≠ [] := by
  intro hs
  subst hs
  simp [parseYMD] at h

/-- On two strings that stand for dates, the first is less than the second
exactly when its date has the smaller day number. -/
theorem jsLt_iff_dayNumber_lt (s1 s2 : JSString) (a b : Nat × Nat × Nat)
    (h1 : parseYMD s1 = some a) (h2 : parseYMD s2 = some b) :
    jsLt s1 s2 = true ↔ dayNumber a < dayNumber b := by
  obtain ⟨_, _, _, _, _, _, _, _, -, -, -, -, -, -, -, -, -, -, ha⟩ := parseYMD_eq_some s1 a h1
  obtain ⟨_, _, _, _, _, _, _, _, -, -, -, -, -, -, -, -, -, -, hb⟩ := parseYMD_eq_some s2 b h2
  rw [jsLt_iff_lexBefore s1 s2 a b h1 h2, dayNumber_lt_iff_lexBefore a b ha hb]

/-- C28: `validateForm` and `handleChange` compare the two date strings as
strings; when both are dates written YYYY-MM-DD, the start string is greater
than the end string exactly when the end date is chronologically before the
start date (has the smaller day number). So on such a form `validateForm`
puts "End date must be after start date" on `endDate` exactly when the end
date is before the start date, and `handleChange` clears the end date exactly
when the new start date is after it. -/
theorem date_strings_chronological (start finish : JSString) (ds de : Nat × Nat × Nat)
    (hs : parseYMD start = some ds) (he : parseYMD finish = some de) :
    (jsGt start finish = true ↔ dayNumber de < dayNumber ds) ∧
    (∀ f : TaskForm, f.startDate = start → f.endDate = finish →
      ((formErrors f).endDate = some (utf16 "End date must be after start date") ↔
        dayNumber de < dayNumber ds)) ∧
    (∀ s : State, s.formData.endDate = finish →
      ((handleChange s (utf16 "startDate") start).formData.endDate = [] ↔
        dayNumber de < dayNumber ds)) := by
  have hgt : jsGt start finish = true ↔ dayNumber de < dayNumber ds := by
    simp only [jsGt]
    exact jsLt_iff_dayNumber_lt finish start de ds he hs
  have hstart : truthyStr start = true := (truthyStr_iff _).2 (ne_nil_of_parseYMD start ds hs)
  have hfinish : truthyStr finish = true := (truthyStr_iff _).2 (ne_nil_of_parseYMD finish de he)
  refine ⟨hgt, ?_, ?_⟩
  · intro f hf1 hf2
    rw [← hgt]
    cases hj : jsGt start finish <;> cases ht : truthyStr (trim f.title) <;>
      simp [formErrors, hf1, hf2, hstart, hfinish, hj, ht]
  · intro s hfin
    rw [← hgt]
    obtain ⟨h1, h2, -, -⟩ := startDate_ne_other_names
    have hne : finish ≠ [] := ne_nil_of_parseYMD finish de he
    cases hj : jsGt start finish <;>
      simp [handleChange, setField, h1, hfin, hfinish, hj, hne]

/-- C28 at the start date 2024-01-03 and the end date 2023-12-31. -/
theorem date_strings_chronological_witness :
    parseYMD (utf16 "2024-01-03") = some (2024, 1, 3) ∧
    parseYMD (utf16 "2023-12-31") = some (2023, 12, 31) ∧
    (jsGt (utf16 "2024-01-03") (utf16 "2023-12-31") = true ↔
      dayNumber (2023, 12, 31) < dayNumber (2024, 1, 3)) ∧
    jsGt (utf16 "2024-01-03") (utf16 "2023-12-31") = true :=
  ⟨by decide, by decide,
    (date_strings_chronological (utf16 "2024-01-03") (utf16 "2023-12-31") (2024, 1, 3)
      (2023, 12, 31) (by decide) (by decide)).1,
    by decide⟩

/-! ## Filtering and sorting -/

theorem mem_insertSorted {α : Type} (comparator : α → α → Option Int) (a x : α) (l : List α) :
    x ∈ insertSorted comparator a l ↔ x = a ∨ x ∈ l := by
  rw [(perm_insertSorted comparator a l).mem_iff, List.mem_cons]

theorem mem_arraySort {α : Type} (comparator : α → α → Option Int) (x : α) (l : List α) :
    x ∈ arraySort comparator l ↔ x ∈ l :=
  (perm_arraySort comparator l).mem_iff

/-- An element that goes after none of a sequence is inserted at its head. -/
theorem insertSorted_eq_cons {α : Type} (comparator : α → α → Option Int) (a : α) (l : List α)
    (h : ∀ c ∈ l, sortsAfter comparator a c = false) :
    insertSorted comparator a l = a :: l := by
  cases l with
  | nil => rfl
  | cons b rest => simp [insertSorted, h b (List.mem_cons_self _ _)]

/-- Inserting into a sorted sequence gives a sorted sequence, for a comparator
that is asymmetric and, on the elements at hand, transitive. -/
theorem pairwise_insertSorted {α : Type} (comparator : α → α → Option Int)
    (hasymm : ∀ a b, sortsAfter comparator a b = true → sortsAfter comparator b a = false)
    (a : α) (l : List α)
    (htrans : ∀ b ∈ l, ∀ c ∈ l, sortsAfter comparator a b = false →
      sortsAfter comparator b c = false → sortsAfter comparator a c = false)
    (hl : l.Pairwise (fun x y => sortsAfter comparator x y = false)) :
    (insertSorted comparator a l).Pairwise (fun x y => sortsAfter comparator x y = false) := by
  induction l with
  | nil => simp [insertSorted]
  | cons b rest ih =>
    obtain ⟨hb, hrest⟩ := List.pairwise_cons.1 hl
    by_cases h : sortsAfter comparator a b = true
    · simp only [insertSorted, h, if_true]
      refine List.pairwise_cons.2 ⟨?_, ?_⟩
      · intro y hy
        rcases (mem_insertSorted comparator a y rest).1 hy with hy | hy
        · rw [hy]
          exact hasymm a b h
        · exact hb y hy
      · apply ih _ hrest
        intro b1 hb1 c hc
        exact htrans b1 (List.mem_cons_of_mem _ hb1) c (List.mem_cons_of_mem _ hc)
    · have hf : sortsAfter comparator a b = false := by simpa using h
      simp only [insertSorted, hf, Bool.false_eq_true, if_false]
      refine List.pairwise_cons.2 ⟨?_, hl⟩
      intro y hy
      rcases List.mem_cons.1 hy with hy | hy
      · rw [hy]
        exact hf
      · exact htrans b (List.mem_cons_self _ _) y (List.mem_cons_of_mem _ hy) hf (hb y hy)

/-- The sorted sequence is sorted: no element goes after a later one, for a
comparator that is asymmetric and transitive on the elements of the
sequence. -/
theorem pairwise_arraySort {α : Type} (comparator : α → α → Option Int)
    (hasymm : ∀ a b, sortsAfter comparator a b = true → sortsAfter comparator b a = false)
    (l : List α)
    (htrans : ∀ a ∈ l, ∀ b ∈ l, ∀ c ∈ l, sortsAfter comparator a b = false →
      sortsAfter comparator b c = false → sortsAfter comparator a c = false) :
    (arraySort comparator l).Pairwise (fun x y => sortsAfter comparator x y = false) := by
  induction l with
  | nil => simp [arraySort]
  | cons a rest ih =>
    simp only [arraySort]
    apply pairwise_insertSorted comparator hasymm
    · intro b hb c hc
      exact htrans a (List.mem_cons_self _ _) b
        (List.mem_cons_of_mem _ ((mem_arraySort comparator b rest).1 hb)) c
        (List.mem_cons_of_mem _ ((mem_arraySort comparator c rest).1 hc))
    · apply ih
      intro x hx y hy z hz
      exact htrans x (List.mem_cons_of_mem _ hx) y (List.mem_cons_of_mem _ hy) z
        (List.mem_cons_of_mem _ hz)

/-- Filtering after an insertion into a sorted sequence is the insertion into
the filtered sequence, or the filtered sequence when the element is filtered
out. -/
theorem filter_insertSorted {α : Type} (comparator : α → α → Option Int) (p : α → Bool)
    (a : α) (l : List α)
    (htrans : ∀ b ∈ l, ∀ c ∈ l, sortsAfter comparator a b = false →
      sortsAfter comparator b c = false → sortsAfter comparator a c = false)
    (hl : l.Pairwise (fun x y => sortsAfter comparator x y = false)) :
    (insertSorted comparator a l).filter p =
      if p a = true then insertSorted comparator a (l.filter p) else l.filter p := by
  induction l with
  | nil => cases hp : p a <;> simp [insertSorted, hp]
  | cons b rest ih =>
    obtain ⟨hb, hrest⟩ := List.pairwise_cons.1 hl
    by_cases h : sortsAfter comparator a b = true
    · have ih1 := ih (fun b1 hb1 c hc =>
        htrans b1 (List.mem_cons_of_mem _ hb1) c (List.mem_cons_of_mem _ hc)) hrest
      simp only [insertSorted, h, if_true]
      cases hpb : p b <;> cases hpa : p a <;>
        simp [List.filter_cons, hpb, hpa, ih1, insertSorted, h]
    · have hf : sortsAfter comparator a b = false := by simpa using h
      simp only [insertSorted, hf, Bool.false_eq_true, if_false]
      cases hpa : p a
      · simp [List.filter_cons, hpa]
      · have hhead : insertSorted comparator a ((b :: rest).filter p) =
            a :: (b :: rest).filter p := by
          apply insertSorted_eq_cons
          intro c hc
          have hc1 : c ∈ b :: rest := (List.mem_filter.1 hc).1
          rcases List.mem_cons.1 hc1 with hc2 | hc2
          · rw [hc2]
            exact hf
          · exact htrans b (List.mem_cons_self _ _) c (List.mem_cons_of_mem _ hc2) hf (hb c hc2)
        rw [if_pos rfl, hhead, List.filter_cons, hpa]
        rfl

/-- Filtering and sorting commute, for a comparator that is asymmetric and
transitive on the elements of the sequence. -/
theorem filter_arraySort {α : Type} (comparator : α → α → Option Int) (p : α → Bool)
    (hasymm : ∀ a b, sortsAfter comparator a b = true → sortsAfter comparator b a = false)
    (l : List α)
    (htrans : ∀ a ∈ l, ∀ b ∈ l, ∀ c ∈ l, sortsAfter comparator a b = false →
      sortsAfter comparator b c = false → sortsAfter comparator a c = false) :
    (arraySort comparator l).filter p = arraySort comparator (l.filter p) := by
  induction l with
  | nil => rfl
  | cons a rest ih =>
    have hrest : ∀ x ∈ rest, ∀ y ∈ rest, ∀ z ∈ rest, sortsAfter comparator x y = false →
        sortsAfter comparator y z = false → sortsAfter comparator x z = false :=
      fun x hx y hy z hz =>
        htrans x (List.mem_cons_of_mem _ hx) y (List.mem_cons_of_mem _ hy) z
          (List.mem_cons_of_mem _ hz)
    have hins := filter_insertSorted comparator p a (arraySort comparator rest)
      (fun b hb c hc => htrans a (List.mem_cons_self _ _) b
        (List.mem_cons_of_mem _ ((mem_arraySort comparator b rest).1 hb)) c
        (List.mem_cons_of_mem _ ((mem_arraySort comparator c rest).1 hc)))
      (pairwise_arraySort comparator hasymm rest hrest)
    simp only [arraySort]
    rw [hins, ih hrest]
    cases hpa : p a <;> simp [List.filter_cons, hpa, arraySort]

/-- Among tasks whose `createdAt` denote dates, not going after is
transitive. -/
theorem sortsAfter_compareCreatedAt_trans (parseDate : JSString → Option Int) (a b c : Task)
    (hb : parseDate b.createdAt ≠ none)
    (hab : sortsAfter (compareCreatedAt parseDate) a b = false)
    (hbc : sortsAfter (compareCreatedAt parseDate) b c = false) :
    sortsAfter (compareCreatedAt parseDate) a c = false := by
  rw [sortsAfter_compareCreatedAt] at hab hbc ⊢
  cases ha1 : parseDate a.createdAt <;> cases hb1 : parseDate b.createdAt <;>
    cases hc1 : parseDate c.createdAt <;> simp_all [isBefore]
  omega

/-- C30, as stated, fails: in the collection of `pendingTask`, `undatedTask`
(completed, its `createdAt` denotes no date) and `laterPendingTask`, under the
filter 'pending', sorting the filtered collection puts the later task first,
while filtering the sorted collection leaves the earlier task first. -/
theorem filter_sort_not_commute :
    sortedTasks sampleParseDate
      (filteredTasks [pendingTask, undatedTask, laterPendingTask] (utf16 "pending")) =
      [laterPendingTask, pendingTask] ∧
    filteredTasks (sortedTasks sampleParseDate [pendingTask, undatedTask, laterPendingTask])
      (utf16 "pending") = [pendingTask, laterPendingTask] ∧
    sortedTasks sampleParseDate
      (filteredTasks [pendingTask, undatedTask, laterPendingTask] (utf16 "pending")) ≠
      filteredTasks (sortedTasks sampleParseDate [pendingTask, undatedTask, laterPendingTask])
        (utf16 "pending") := by
  decide

/-- C30, amended: for every collection in which every `createdAt` denotes a
date, and every filter, sorting the filtered collection gives the sequence
that filtering the sorted collection gives; and for every collection the
number of tasks displayed under 'completed' is the `completed` of the
statistics, the number displayed under 'pending' their `pending`. -/
theorem filter_sort_commute (parseDate : JSString → Option Int) (tasks : List Task)
    (currentFilter : JSString) :
    ((∀ t ∈ tasks, parseDate t.createdAt ≠ none) →
      sortedTasks parseDate (filteredTasks tasks currentFilter) =
        filteredTasks (sortedTasks parseDate tasks) currentFilter) ∧
    (sortedTasks parseDate (filteredTasks tasks (utf16 "completed"))).length =
      (computeStats tasks).completed ∧
    (sortedTasks parseDate (filteredTasks tasks (utf16 "pending"))).length =
      (computeStats tasks).pending := by
  refine ⟨?_, ?_, ?_⟩
  · intro hdates
    simp only [sortedTasks, sortStatement, filteredTasks]
    symm
    apply filter_arraySort _ _ (sortsAfter_compareCreatedAt_asymm parseDate)
    intro a _ b hb c _
    exact sortsAfter_compareCreatedAt_trans parseDate a b c (hdates b hb)
  · have hc : filterPred (utf16 "completed") = fun t => t.completed :=
      funext filterPred_completed
    simp only [sortedTasks, sortStatement, filteredTasks, hc, computeStats]
    exact (perm_arraySort _ _).length_eq
  · have hp : filterPred (utf16 "pending") = fun t => !t.completed :=
      funext filterPred_pending
    simp only [sortedTasks, sortStatement, filteredTasks, hp, computeStats]
    exact (perm_arraySort _ _).length_eq

/-- C30, amended, at the collection of `pendingTask`, `completedTask` and
`laterPendingTask` under the filter 'pending'. -/
theorem filter_sort_commute_witness :
    (∀ t ∈ [pendingTask, completedTask, laterPendingTask],
      sampleParseDate t.createdAt ≠ none) ∧
    sortedTasks sampleParseDate
      (filteredTasks [pendingTask, completedTask, laterPendingTask] (utf16 "pending")) =
      filteredTasks (sortedTasks sampleParseDate [pendingTask, completedTask, laterPendingTask])
        (utf16 "pending") ∧
    sortedTasks sampleParseDate
      (filteredTasks [pendingTask, completedTask, laterPendingTask] (utf16 "pending")) =
      [laterPendingTask, pendingTask] :=
  ⟨by decide,
    (filter_sort_commute sampleParseDate [pendingTask, completedTask, laterPendingTask]
      (utf16 "pending")).1 (by decide),
    by decide⟩

/-! ## The order of the sorted view -/

/-- In a collection in which every `createdAt` denotes a date, `sortedTasks` is
a permutation of the collection in which no task stands before a newer one:
of every two tasks of it, the `createdAt` of the one that comes first is not
before the `createdAt` of the other. -/
theorem sortedTasks_newest_first_of_dates (parseDate : JSString → Option Int)
    (tasks : List Task) (hdates : ∀ t ∈ tasks, parseDate t.createdAt ≠ none) :
    (sortedTasks parseDate tasks).Perm tasks ∧
    (sortedTasks parseDate tasks).Pairwise
      (fun x y => isBefore (parseDate x.createdAt) (parseDate y.createdAt) = false) := by
  refine ⟨perm_arraySort _ tasks, ?_⟩
  have h := pairwise_arraySort (compareCreatedAt parseDate)
    (sortsAfter_compareCreatedAt_asymm parseDate) tasks
    (fun a _ b hb c _ => sortsAfter_compareCreatedAt_trans parseDate a b c (hdates b hb))
  refine List.Pairwise.imp ?_ h
  intro a b hab
  rw [← sortsAfter_compareCreatedAt]
  exact hab

/-- C20 at a failing input: the collection holds `pendingTask`, then
`undatedTask`, whose `createdAt` is the empty string and denotes no date, then
`laterPendingTask`, created one millisecond after `pendingTask`; the filter is
'all'. Next to the undated task the comparator is NaN, and `sortedTasks` is
the collection in its order: the older task stands before the newer one. -/
theorem sortedTasks_undated_keeps_older_first :
    sampleParseDate pendingTask.createdAt = some 1700000000000 ∧
    sampleParseDate undatedTask.createdAt = none ∧
    sampleParseDate laterPendingTask.createdAt = some 1700000000001 ∧
    compareCreatedAt sampleParseDate pendingTask undatedTask = none ∧
    compareCreatedAt sampleParseDate undatedTask laterPendingTask = none ∧
    sortedTasks sampleParseDate
      (filteredTasks [pendingTask, undatedTask, laterPendingTask] (utf16 "all")) =
      [pendingTask, undatedTask, laterPendingTask] ∧
    isBefore (sampleParseDate pendingTask.createdAt)
      (sampleParseDate laterPendingTask.createdAt) = true := by
  decide

/-- C21: in a collection in which every `createdAt` denotes a date, sorting is
idempotent: `sortedTasks` of `sortedTasks` of the collection is `sortedTasks`
of the collection. -/
theorem sortedTasks_idempotent (parseDate : JSString → Option Int) (tasks : List Task)
    (hdates : ∀ t ∈ tasks, parseDate t.createdAt ≠ none) :
    sortedTasks parseDate (sortedTasks parseDate tasks) = sortedTasks parseDate tasks := by
  have h := pairwise_arraySort (compareCreatedAt parseDate)
    (sortsAfter_compareCreatedAt_asymm parseDate) tasks
    (fun a _ b hb c _ => sortsAfter_compareCreatedAt_trans parseDate a b c (hdates b hb))
  simp only [sortedTasks, sortStatement]
  exact arraySort_eq_self _ _ h.chain'

/-- C21 at the collection of `pendingTask`, `completedTask` and
`laterPendingTask`, all three with a `createdAt` that denotes a date. -/
theorem sortedTasks_idempotent_witness :
    (∀ t ∈ [pendingTask, completedTask, laterPendingTask],
      sampleParseDate t.createdAt ≠ none) ∧
    sortedTasks sampleParseDate
      (sortedTasks sampleParseDate [pendingTask, completedTask, laterPendingTask]) =
      sortedTasks sampleParseDate [pendingTask, completedTask, laterPendingTask] ∧
    sortedTasks sampleParseDate [pendingTask, completedTask, laterPendingTask] =
      [completedTask, laterPendingTask, pendingTask] :=
  ⟨by decide,
    sortedTasks_idempotent sampleParseDate [pendingTask, completedTask, laterPendingTask]
      (by decide),
    by decide⟩

end TaskTracker
